import Mathlib

/-!
WS2812B pixel buffer: encoder, clear, brightness rescaling.

A shallow embedding of `src/WS2812B.cpp`.  The object state is an explicit
record, the heap block behind `pixels` is a list of bytes, and every member
function is a function from states to `Option` states: `none` stands for
undefined behaviour of the C++ code (a store or load outside the allocated
block, or through the null pointer).

Machine integers are natural numbers, reduced modulo `2^w` at the places where
the C++ code converts to a `w`-bit type.  `int` is 32 bits wide on the target
(STM32), so the intermediate `int` arithmetic of the source never overflows
for operands of the declared widths.
-/

/-! ## Data model -/

/-- The data members of class `WS2812B` that `WS2812B.cpp` reads and writes.
`pixels = none` is the null pointer, `pixels = some buf` a live heap block
whose bytes are `buf`.  The class declaration is in `WS2812B.h`; the widths
used here are the ones the member functions show: `numLEDs` is returned by
`numPixels` as `uint16_t`, `numBytes` is the bound of the `uint16_t` counter
in `setBrightness` and is `uint16_t` as well, `brightness` is compared with
and assigned from a `uint8_t`. -/
structure WS2812B where
  begun : Bool
  numLEDs : Nat
  numBytes : Nat
  brightness : Nat
  pixels : Option (List Nat)
  endTime : Nat
  deriving DecidableEq

namespace WS2812B

/-- Modelled from the spec: the three static lookup tables `byte0Lookup`,
`byte1Lookup`, `byte2Lookup` that `WS2812B.cpp` indexes but that are declared
in `WS2812B.h`; the spec gives them as 256 entries of one byte each.  Their
contents are left open: every result below holds for all tables. -/
structure Lookup where
  byte0Lookup : Nat → Nat
  byte1Lookup : Nat → Nat
  byte2Lookup : Nat → Nat
  byte0_lt : ∀ v, byte0Lookup v < 256
  byte1_lt : ∀ v, byte1Lookup v < 256
  byte2_lt : ∀ v, byte2Lookup v < 256

/-- Conversion of an `int` value to `uint8_t`. -/
def u8 (x : Int) : Nat := (x % 256).toNat

/-- One store `*p = v` into the block, `p` given as an offset from its start;
undefined outside the block. -/
def poke (buf : List Nat) (p v : Nat) : Option (List Nat) :=
  if p < buf.length then some (buf.set p v) else none

/-- The statement sequence `*bptr++ = v0; *bptr++ = v1; ...` starting at
offset `p`. -/
def pokes : List Nat → Nat → List Nat → Option (List Nat)
  | buf, _, [] => some buf
  | buf, p, v :: vs => (poke buf p v).bind (fun m => pokes m (p + 1) vs)

/-! ## Member functions -/

/-- The loop of `clear`: `k` iterations left, `bptr` at offset `p`. -/
def clearLoop (T : Lookup) : Nat → Nat → List Nat → Option (List Nat)
  | 0, _, buf => some buf
  | k + 1, p, buf =>
    (pokes buf p [T.byte0Lookup 0, T.byte1Lookup 0, T.byte2Lookup 0]).bind
      (fun m => clearLoop T k (p + 3) m)

/-- `WS2812B::clear()`: `numLEDs * 3` iterations from `pixels + 1`. -/
def clear (T : Lookup) (s : WS2812B) : Option WS2812B :=
  match s.pixels with
  | none => if s.numLEDs * 3 = 0 then some s else none
  | some buf =>
    (clearLoop T (s.numLEDs * 3) 1 buf).map (fun m => { s with pixels := some m })

/-- `WS2812B::updateLength(uint16_t n)`.  `mallocOk` says whether `malloc`
returns a block.  The old block is freed, `numBytes` receives `(n<<3)+n+2`
converted to `uint16_t`, and the new block has `numBytes` zero bytes before
`clear()` runs. -/
def updateLength (T : Lookup) (mallocOk : Bool) (n : Nat) (s : WS2812B) :
    Option WS2812B :=
  let numBytes := ((n <<< 3) + n + 2) % 65536
  if mallocOk then
    clear T { s with numBytes := numBytes, pixels := some (List.replicate numBytes 0),
                     numLEDs := n }
  else
    some { s with numBytes := 0, pixels := none, numLEDs := 0 }

/-- The constructor `WS2812B::WS2812B(uint16_t n)`.  `numLEDs` and `numBytes`
have no initialiser; `updateLength` assigns both before anything reads them,
so their start value (here 0) does not matter. -/
def construct (T : Lookup) (mallocOk : Bool) (n : Nat) : Option WS2812B :=
  updateLength T mallocOk n
    { begun := false, numLEDs := 0, numBytes := 0, brightness := 0, pixels := none,
      endTime := 0 }

/-- `WS2812B::setPixelColor(uint16_t n, uint8_t r, uint8_t g, uint8_t b)`. -/
def setPixelColor (T : Lookup) (n r g b : Nat) (s : WS2812B) : Option WS2812B :=
  match s.pixels with
  | none => none
  | some buf =>
    (pokes buf ((n <<< 3) + n + 1)
      [T.byte0Lookup g, T.byte1Lookup g, T.byte2Lookup g,
       T.byte0Lookup r, T.byte1Lookup r, T.byte2Lookup r,
       T.byte0Lookup b, T.byte1Lookup b, T.byte2Lookup b]).map
      (fun m => { s with pixels := some m })

/-- `WS2812B::setPixelColor(uint16_t n, uint32_t c)`. -/
def setPixelColor32 (T : Lookup) (n c : Nat) (s : WS2812B) : Option WS2812B :=
  if s.brightness ≠ 0 then
    setPixelColor T n
      ((((c >>> 16) % 256 * s.brightness) >>> 8) % 256)
      ((((c >>> 8) % 256 * s.brightness) >>> 8) % 256)
      (((c % 256 * s.brightness) >>> 8) % 256) s
  else
    setPixelColor T n ((c >>> 16) % 256) ((c >>> 8) % 256) (c % 256) s

/-- `WS2812B::Color(uint8_t r, uint8_t g, uint8_t b)`. -/
def Color (r g b : Nat) : Nat :=
  (r <<< 16) ||| (g <<< 8) ||| b

/-- `WS2812B::Color(uint8_t r, uint8_t g, uint8_t b, uint8_t w)`. -/
def ColorW (r g b w : Nat) : Nat :=
  (w <<< 24) ||| (r <<< 16) ||| (g <<< 8) ||| b

/-- `WS2812B::numPixels()`. -/
def numPixels (s : WS2812B) : Nat := s.numLEDs

/-- The `scale` computed by `setBrightness` (a `uint16_t`) from the argument
`b`, `newBrightness` and `oldBrightness`.  The third branch is reached only
with `b ≠ 255`, where `newBrightness ≥ 1`, so the subtraction stays
non-negative. -/
def brightnessScale (b newBrightness oldBrightness : Nat) : Nat :=
  if oldBrightness = 0 then 0
  else if b = 255 then (65535 / oldBrightness) % 65536
  else (((newBrightness <<< 8) - 1) / oldBrightness) % 65536

/-- The loop of `setBrightness`: `k` iterations left, `ptr` at offset `p`;
each one loads `c = *ptr` and stores `(c * scale) >> 8` as a `uint8_t`. -/
def scaleLoop (scale : Nat) : Nat → Nat → List Nat → Option (List Nat)
  | 0, _, buf => some buf
  | k + 1, p, buf =>
    match buf[p]? with
    | none => none
    | some c =>
      (poke buf p (((c * scale) >>> 8) % 256)).bind (fun m => scaleLoop scale k (p + 1) m)

/-- `WS2812B::setBrightness(uint8_t b)`. -/
def setBrightness (b : Nat) (s : WS2812B) : Option WS2812B :=
  let newBrightness := (b + 1) % 256
  if newBrightness ≠ s.brightness then
    let oldBrightness := u8 ((s.brightness : Int) - 1)
    let scale := brightnessScale b newBrightness oldBrightness
    match s.pixels with
    | none =>
      if s.numBytes = 0 then some { s with brightness := newBrightness } else none
    | some buf =>
      (scaleLoop scale s.numBytes 0 buf).map
        (fun m => { s with pixels := some m, brightness := newBrightness })
  else some s

/-- `WS2812B::getBrightness()`. -/
def getBrightness (s : WS2812B) : Nat := u8 ((s.brightness : Int) - 1)

/-! ## Vocabulary of the statements -/

/-- The 9-byte region of LED `i` in a buffer. -/
def region (buf : List Nat) (i : Nat) : List Nat := (buf.drop (1 + 9 * i)).take 9

/-- The three output bytes of one channel intensity. -/
def encode (T : Lookup) (v : Nat) : List Nat :=
  [T.byte0Lookup v, T.byte1Lookup v, T.byte2Lookup v]

/-- A sample table set for concrete evaluations: every data bit, most
significant first, becomes the three serial bits `110` (one) or `100` (zero),
and the 24 serial bits are cut into three bytes. -/
def sampleBits (v : Nat) : Nat :=
  (List.range 8).foldl (fun acc i => acc * 8 + (if v.testBit (7 - i) then 6 else 4)) 0

/-- The sample tables as a `Lookup`. -/
def sampleLookup : Lookup where
  byte0Lookup := fun v => (sampleBits v >>> 16) % 256
  byte1Lookup := fun v => (sampleBits v >>> 8) % 256
  byte2Lookup := fun v => sampleBits v % 256
  byte0_lt := fun _ => Nat.mod_lt _ (by decide)
  byte1_lt := fun _ => Nat.mod_lt _ (by decide)
  byte2_lt := fun _ => Nat.mod_lt _ (by decide)

/-- A three-LED strip right after construction with the sample tables: both
padding bytes 0 and every channel holding the encoding of intensity 0. -/
def strip3 : WS2812B :=
  { begun := false, numLEDs := 3, numBytes := 29, brightness := 0,
    pixels := some
      [0,
       0x92, 0x49, 0x24, 0x92, 0x49, 0x24, 0x92, 0x49, 0x24,
       0x92, 0x49, 0x24, 0x92, 0x49, 0x24, 0x92, 0x49, 0x24,
       0x92, 0x49, 0x24, 0x92, 0x49, 0x24, 0x92, 0x49, 0x24,
       0],
    endTime := 0 }

/-- The block of `strip3`. -/
def strip3Buf : List Nat :=
  [0,
   0x92, 0x49, 0x24, 0x92, 0x49, 0x24, 0x92, 0x49, 0x24,
   0x92, 0x49, 0x24, 0x92, 0x49, 0x24, 0x92, 0x49, 0x24,
   0x92, 0x49, 0x24, 0x92, 0x49, 0x24, 0x92, 0x49, 0x24,
   0]

/-- The length invariant of the object: either there is no block and both
counters are 0, or the block has exactly `numBytes` bytes and
`numBytes = 9 * numLEDs + 2`. -/
def Consistent (s : WS2812B) : Prop :=
  match s.pixels with
  | none => s.numLEDs = 0 ∧ s.numBytes = 0
  | some buf => buf.length = s.numBytes ∧ s.numBytes = 9 * s.numLEDs + 2

/-- Every cell of a block holds a `uint8_t`. -/
def Bytes (buf : List Nat) : Prop := ∀ c ∈ buf, c < 256

/-- The rescaling `setBrightness` applies to one buffer byte, as the integer
`(c * scale) >> 8` before the store converts it to `uint8_t`. -/
def rescaled (scale c : Nat) : Nat := (c * scale) >>> 8

/-- A one-LED strip right after construction with the sample tables. -/
def strip1 : WS2812B :=
  { begun := false, numLEDs := 1, numBytes := 11, brightness := 0,
    pixels := some [0, 0x92, 0x49, 0x24, 0x92, 0x49, 0x24, 0x92, 0x49, 0x24, 0],
    endTime := 0 }

/-- The block of `strip1`. -/
def strip1Buf : List Nat := [0, 0x92, 0x49, 0x24, 0x92, 0x49, 0x24, 0x92, 0x49, 0x24, 0]

/-- A one-LED strip at user brightness 1 (stored 2) showing white: every
channel holds the sample encoding of the scaled intensity `(255 * 2) >> 8 = 1`. -/
def dimStrip1 : WS2812B :=
  { begun := false, numLEDs := 1, numBytes := 11, brightness := 2,
    pixels := some [0, 0x92, 0x49, 0x26, 0x92, 0x49, 0x26, 0x92, 0x49, 0x26, 0],
    endTime := 0 }

/-- The block of `dimStrip1`. -/
def dimStrip1Buf : List Nat := [0, 0x92, 0x49, 0x26, 0x92, 0x49, 0x26, 0x92, 0x49, 0x26, 0]

/-- A one-LED strip at user brightness 0 (stored 1) after a pixel write:
every channel holds the sample encoding of intensity 0. -/
def offStrip1 : WS2812B :=
  { begun := false, numLEDs := 1, numBytes := 11, brightness := 1,
    pixels := some [0, 0x92, 0x49, 0x24, 0x92, 0x49, 0x24, 0x92, 0x49, 0x24, 0],
    endTime := 0 }


/-- The Empty state the failing constructor leaves for the sample tables: no
block, both counters 0. -/
def emptyStrip : WS2812B :=
  { begun := false, numLEDs := 0, numBytes := 0, brightness := 0, pixels := none,
    endTime := 0 }

/-- The padding of a state: with a block present, its first and its last byte
(index `numBytes - 1`) are 0. -/
def Padded (s : WS2812B) : Prop :=
  ∀ buf, s.pixels = some buf → buf[0]? = some 0 ∧ buf[s.numBytes - 1]? = some 0

/-- A one-LED strip at user brightness 128 (stored 129) after the
three-channel pixel write of (255, 255, 255): every channel holds the sample
encoding of 255. -/
def midStrip1 : WS2812B :=
  { begun := false, numLEDs := 1, numBytes := 11, brightness := 129,
    pixels := some [0, 0xDB, 0x6D, 0xB6, 0xDB, 0x6D, 0xB6, 0xDB, 0x6D, 0xB6, 0],
    endTime := 0 }

/-- The block of `midStrip1`. -/
def midStrip1Buf : List Nat := [0, 0xDB, 0x6D, 0xB6, 0xDB, 0x6D, 0xB6, 0xDB, 0x6D, 0xB6, 0]

/-! ## The sample tables and sample states -/

theorem encode_sample_zero : encode sampleLookup 0 = [0x92, 0x49, 0x24] := by decide

theorem encode_sample_full : encode sampleLookup 255 = [0xDB, 0x6D, 0xB6] := by decide

/-- The sample strip `strip3` is what the constructor returns for three LEDs. -/
theorem construct_strip3 : construct sampleLookup true 3 = some strip3 := by decide

/-- The sample strip `strip1` is what the constructor returns for one LED. -/
theorem construct_strip1 : construct sampleLookup true 1 = some strip1 := by decide

/-- The sample strip `dimStrip1` is reached from the constructor by
`setBrightness(1)` and a packed white pixel write. -/
theorem reach_dimStrip1 :
    ((construct sampleLookup true 1).bind (setBrightness 1)).bind
      (setPixelColor32 sampleLookup 0 (Color 255 255 255)) = some dimStrip1 := by decide

/-- The sample strip `offStrip1` is reached from the constructor by
`setBrightness(0)` and a packed white pixel write. -/
theorem reach_offStrip1 :
    ((construct sampleLookup true 1).bind (setBrightness 0)).bind
      (setPixelColor32 sampleLookup 0 (Color 255 255 255)) = some offStrip1 := by decide

/-- The sample strip `midStrip1` is reached from the constructor by
`setBrightness(128)` and the three-channel pixel write of (255, 255, 255). -/
theorem reach_midStrip1 :
    ((construct sampleLookup true 1).bind (setBrightness 128)).bind
      (setPixelColor sampleLookup 0 255 255 255) = some midStrip1 := by decide

theorem strip3_pixels : strip3.pixels = some strip3Buf := rfl

theorem strip1_pixels : strip1.pixels = some strip1Buf := rfl

theorem dimStrip1_pixels : dimStrip1.pixels = some dimStrip1Buf := rfl


/-! ## Stores and loops -/

theorem poke_eq_some {buf : List Nat} {p : Nat} (v : Nat) (h : p < buf.length) :
    poke buf p v = some (buf.set p v) := by
  simp [poke, h]

/-- A run of stores that stays inside the block succeeds, keeps the length,
writes exactly the given values and leaves every other offset alone. -/
theorem pokes_spec (vs : List Nat) : ∀ (buf : List Nat) (p : Nat),
    p + vs.length ≤ buf.length →
    ∃ m, pokes buf p vs = some m ∧ m.length = buf.length ∧
      ∀ j, m[j]? = if p ≤ j ∧ j < p + vs.length then vs[j - p]? else buf[j]? := by
  induction vs with
  | nil =>
    intro buf p _
    refine ⟨buf, rfl, rfl, fun j => ?_⟩
    have : ¬ (p ≤ j ∧ j < p + ([] : List Nat).length) := by simp
    rw [if_neg this]
  | cons v vs ih =>
    intro buf p h
    simp only [List.length_cons] at h
    have hp : p < buf.length := by omega
    obtain ⟨m, hm, hlen, hget⟩ := ih (buf.set p v) (p + 1) (by simp; omega)
    refine ⟨m, ?_, ?_, fun j => ?_⟩
    · simp [pokes, poke_eq_some v hp, hm]
    · simpa using hlen
    · rw [hget j]
      simp only [List.length_cons]
      by_cases h1 : p + 1 ≤ j ∧ j < p + 1 + vs.length
      · have h2 : p ≤ j ∧ j < p + (vs.length + 1) := by omega
        rw [if_pos h1, if_pos h2]
        obtain ⟨k, hk⟩ : ∃ k, j - p = k + 1 := ⟨j - p - 1, by omega⟩
        have hk2 : j - (p + 1) = k := by omega
        rw [hk, hk2, List.getElem?_cons_succ]
      · rw [if_neg h1]
        by_cases h3 : j = p
        · subst h3
          have h2 : j ≤ j ∧ j < j + (vs.length + 1) := by omega
          rw [if_pos h2, List.getElem?_set_self hp]
          simp
        · have h2 : ¬ (p ≤ j ∧ j < p + (vs.length + 1)) := by omega
          rw [if_neg h2, List.getElem?_set_ne (Ne.symm h3)]

/-- The loop of `clear`, run inside the block, succeeds, keeps the length,
fills `3 * k` bytes from offset `p` with the three table entries for 0 in
turn, and leaves every other offset alone. -/
theorem clearLoop_spec (T : Lookup) (k : Nat) : ∀ (p : Nat) (buf : List Nat),
    p + 3 * k ≤ buf.length →
    ∃ m, clearLoop T k p buf = some m ∧ m.length = buf.length ∧
      ∀ j, m[j]? = if p ≤ j ∧ j < p + 3 * k then (encode T 0)[(j - p) % 3]? else buf[j]? := by
  induction k with
  | zero =>
    intro p buf _
    refine ⟨buf, rfl, rfl, fun j => ?_⟩
    have : ¬ (p ≤ j ∧ j < p + 3 * 0) := by omega
    rw [if_neg this]
  | succ k ih =>
    intro p buf h
    obtain ⟨m1, hm1, hlen1, hget1⟩ :=
      pokes_spec [T.byte0Lookup 0, T.byte1Lookup 0, T.byte2Lookup 0] buf p
        (by simp only [List.length_cons, List.length_nil]; omega)
    obtain ⟨m, hm, hlen, hget⟩ := ih (p + 3) m1 (by omega)
    refine ⟨m, ?_, by omega, fun j => ?_⟩
    · simp [clearLoop, hm1, hm]
    · rw [hget j, hget1 j]
      simp only [List.length_cons, List.length_nil]
      by_cases h1 : p + 3 ≤ j ∧ j < p + 3 + 3 * k
      · have h2 : p ≤ j ∧ j < p + 3 * (k + 1) := by omega
        have h3 : (j - (p + 3)) % 3 = (j - p) % 3 := by omega
        rw [if_pos h1, if_pos h2, h3]
      · rw [if_neg h1]
        by_cases h4 : p ≤ j ∧ j < p + (0 + 1 + 1 + 1)
        · have h2 : p ≤ j ∧ j < p + 3 * (k + 1) := by omega
          have h3 : (j - p) % 3 = j - p := by omega
          rw [if_pos h4, if_pos h2, h3, encode]
        · have h2 : ¬ (p ≤ j ∧ j < p + 3 * (k + 1)) := by omega
          rw [if_neg h4, if_neg h2]

/-- The loop of `setBrightness`, run inside the block, succeeds, keeps the
length, replaces each of the `k` bytes from offset `p` by its rescaled value
and leaves every other offset alone. -/
theorem scaleLoop_spec (scale : Nat) (k : Nat) : ∀ (p : Nat) (buf : List Nat),
    p + k ≤ buf.length →
    ∃ m, scaleLoop scale k p buf = some m ∧ m.length = buf.length ∧
      ∀ j, m[j]? = if p ≤ j ∧ j < p + k
        then buf[j]?.map (fun c => ((c * scale) >>> 8) % 256) else buf[j]? := by
  induction k with
  | zero =>
    intro p buf _
    refine ⟨buf, rfl, rfl, fun j => ?_⟩
    have : ¬ (p ≤ j ∧ j < p + 0) := by omega
    rw [if_neg this]
  | succ k ih =>
    intro p buf h
    have hp : p < buf.length := by omega
    obtain ⟨m, hm, hlen, hget⟩ :=
      ih (p + 1) (buf.set p (((buf[p] * scale) >>> 8) % 256)) (by simp; omega)
    refine ⟨m, ?_, by simpa using hlen, fun j => ?_⟩
    · simp [scaleLoop, List.getElem?_eq_getElem hp, poke_eq_some _ hp, hm]
    · rw [hget j]
      by_cases h1 : p + 1 ≤ j ∧ j < p + 1 + k
      · have h2 : p ≤ j ∧ j < p + (k + 1) := by omega
        have h3 : p ≠ j := by omega
        rw [if_pos h1, if_pos h2, List.getElem?_set_ne h3]
      · rw [if_neg h1]
        by_cases h3 : j = p
        · subst h3
          have h2 : j ≤ j ∧ j < j + (k + 1) := by omega
          rw [if_pos h2, List.getElem?_set_self hp, List.getElem?_eq_getElem hp]
          rfl
        · have h2 : ¬ (p ≤ j ∧ j < p + (k + 1)) := by omega
          rw [if_neg h2, List.getElem?_set_ne (Ne.symm h3)]

/-- Run over the whole block, the loop of `setBrightness` maps the rescaling
over the buffer. -/
theorem scaleLoop_all (scale : Nat) (buf : List Nat) :
    scaleLoop scale buf.length 0 buf
      = some (buf.map (fun c => ((c * scale) >>> 8) % 256)) := by
  obtain ⟨m, hm, _, hget⟩ := scaleLoop_spec scale buf.length 0 buf (by omega)
  rw [hm]
  congr 1
  apply List.ext_getElem?
  intro j
  rw [hget j, List.getElem?_map]
  by_cases h : 0 ≤ j ∧ j < 0 + buf.length
  · rw [if_pos h]
  · rw [if_neg h, List.getElem?_eq_none (by omega)]
    rfl


/-! ## Per-pixel writes -/

theorem pixelOffset_eq (n : Nat) : (n <<< 3) + n + 1 = 1 + 9 * n := by
  rw [Nat.shiftLeft_eq]; omega

/-- A buffer slice is determined by the bytes at its offsets. -/
theorem slice_eq_of_get (m vs : List Nat) (p : Nat)
    (h : ∀ j, j < vs.length → m[p + j]? = vs[j]?) :
    (m.drop p).take vs.length = vs := by
  apply List.ext_getElem?
  intro j
  rw [List.getElem?_take, List.getElem?_drop]
  by_cases hj : j < vs.length
  · rw [if_pos hj, h j hj]
  · rw [if_neg hj, List.getElem?_eq_none (by omega)]

/-- Two buffers that agree on the offsets of LED `i` have the same region. -/
theorem region_congr (m buf : List Nat) (i : Nat)
    (h : ∀ j, j < 9 → m[1 + 9 * i + j]? = buf[1 + 9 * i + j]?) :
    region m i = region buf i := by
  unfold region
  apply List.ext_getElem?
  intro j
  rw [List.getElem?_take, List.getElem?_take, List.getElem?_drop, List.getElem?_drop]
  by_cases hj : j < 9
  · rw [if_pos hj, if_pos hj, h j hj]
  · rw [if_neg hj, if_neg hj]

/-- What the three-channel `setPixelColor` does to an allocated buffer that
holds LED `n`: it succeeds, touches only `pixels`, keeps the length, and the
new buffer differs from the old one exactly by the nine stored bytes. -/
theorem setPixelColor_spec (T : Lookup) (s : WS2812B) (buf : List Nat) (n r g b : Nat)
    (hp : s.pixels = some buf) (hlen : 1 + 9 * n + 9 ≤ buf.length) :
    ∃ m, setPixelColor T n r g b s = some { s with pixels := some m } ∧
      m.length = buf.length ∧
      ∀ j, m[j]? = if 1 + 9 * n ≤ j ∧ j < 1 + 9 * n + 9
        then (encode T g ++ encode T r ++ encode T b)[j - (1 + 9 * n)]? else buf[j]? := by
  obtain ⟨m, hm, hl, hget⟩ :=
    pokes_spec (encode T g ++ encode T r ++ encode T b) buf (1 + 9 * n)
      (by simp only [encode, List.length_append, List.length_cons, List.length_nil]; omega)
  refine ⟨m, ?_, hl, ?_⟩
  · simp only [setPixelColor, hp, pixelOffset_eq]
    simp only [encode, List.cons_append, List.nil_append] at hm
    rw [hm]
    rfl
  · intro j
    rw [hget j]
    simp only [encode, List.length_append, List.length_cons, List.length_nil]


/-- C1: on an allocated buffer (`9 * numLEDs + 2` bytes) and for `n < numLEDs`,
`setPixelColor(n, r, g, b)` succeeds and leaves at offsets `1+9n .. 1+9n+8` the
nine bytes `byte0Lookup[g], byte1Lookup[g], byte2Lookup[g], byte0Lookup[r],
byte1Lookup[r], byte2Lookup[r], byte0Lookup[b], byte1Lookup[b], byte2Lookup[b]`
in this order (Green, Red, Blue), for any table contents. -/
theorem setPixelColor_region (T : Lookup) (s : WS2812B) (buf : List Nat) (n r g b : Nat)
    (hp : s.pixels = some buf) (hlen : buf.length = 9 * s.numLEDs + 2)
    (hn : n < s.numLEDs) :
    ∃ m, setPixelColor T n r g b s = some { s with pixels := some m } ∧
      (m.drop (1 + 9 * n)).take 9 =
        [T.byte0Lookup g, T.byte1Lookup g, T.byte2Lookup g,
         T.byte0Lookup r, T.byte1Lookup r, T.byte2Lookup r,
         T.byte0Lookup b, T.byte1Lookup b, T.byte2Lookup b] := by
  obtain ⟨m, hm, _, hget⟩ := setPixelColor_spec T s buf n r g b hp (by omega)
  refine ⟨m, hm, ?_⟩
  have key := slice_eq_of_get m (encode T g ++ encode T r ++ encode T b) (1 + 9 * n)
    (fun j hj => by
      simp only [encode, List.length_append, List.length_cons, List.length_nil] at hj
      have h1 : 1 + 9 * n ≤ 1 + 9 * n + j ∧ 1 + 9 * n + j < 1 + 9 * n + 9 := by omega
      have h2 : 1 + 9 * n + j - (1 + 9 * n) = j := by omega
      rw [hget, if_pos h1, h2])
  exact key

/-- C1 at a concrete input: LED 2 of the three-LED strip, colour (10, 20, 30). -/
theorem setPixelColor_region_witness :
    strip3.pixels = some strip3Buf ∧ strip3Buf.length = 9 * strip3.numLEDs + 2 ∧
    2 < strip3.numLEDs ∧
    ∃ m, setPixelColor sampleLookup 2 10 20 30 strip3 = some { strip3 with pixels := some m } ∧
      (m.drop (1 + 9 * 2)).take 9 =
        [sampleLookup.byte0Lookup 20, sampleLookup.byte1Lookup 20, sampleLookup.byte2Lookup 20,
         sampleLookup.byte0Lookup 10, sampleLookup.byte1Lookup 10, sampleLookup.byte2Lookup 10,
         sampleLookup.byte0Lookup 30, sampleLookup.byte1Lookup 30, sampleLookup.byte2Lookup 30] :=
  ⟨rfl, by decide, by decide,
   setPixelColor_region sampleLookup strip3 strip3Buf 2 10 20 30 rfl (by decide) (by decide)⟩

/-- C2: on an allocated buffer and for `n < numLEDs`, `setPixelColor(n, r, g, b)`
changes no byte outside offsets `1+9n .. 1+9n+8`: byte 0, the final byte and
the region of every other LED keep their values, and `numLEDs`, `numBytes`,
the buffer length and the stored brightness are unchanged. -/
theorem setPixelColor_frame (T : Lookup) (s : WS2812B) (buf : List Nat) (n r g b : Nat)
    (hp : s.pixels = some buf) (hlen : buf.length = 9 * s.numLEDs + 2)
    (hn : n < s.numLEDs) :
    ∃ s' m, setPixelColor T n r g b s = some s' ∧ s'.pixels = some m ∧
      s'.numLEDs = s.numLEDs ∧ s'.numBytes = s.numBytes ∧
      s'.brightness = s.brightness ∧ m.length = buf.length ∧
      (∀ j, j < 1 + 9 * n ∨ 1 + 9 * n + 8 < j → m[j]? = buf[j]?) ∧
      m[0]? = buf[0]? ∧ m[buf.length - 1]? = buf[buf.length - 1]? ∧
      (∀ i, i ≠ n → region m i = region buf i) := by
  obtain ⟨m, hm, hl, hget⟩ := setPixelColor_spec T s buf n r g b hp (by omega)
  have hout : ∀ j, j < 1 + 9 * n ∨ 1 + 9 * n + 8 < j → m[j]? = buf[j]? := by
    intro j hj
    have h1 : ¬ (1 + 9 * n ≤ j ∧ j < 1 + 9 * n + 9) := by omega
    rw [hget, if_neg h1]
  refine ⟨_, m, hm, rfl, rfl, rfl, rfl, hl, hout, hout 0 (by omega),
    hout _ (by omega), ?_⟩
  intro i hi
  apply region_congr
  intro j hj
  apply hout
  omega

/-- C2 at the scenario of the spec: three LEDs freshly cleared, then
`setPixelColor(0, 255, 0, 0)`; LEDs 1 and 2 and the Green and Blue bytes of
LED 0 still hold the encoding of 0, the Red bytes hold the encoding of 255. -/
theorem setPixelColor_frame_witness :
    construct sampleLookup true 3 = some strip3 ∧
    strip3.pixels = some strip3Buf ∧ strip3Buf.length = 9 * strip3.numLEDs + 2 ∧
    0 < strip3.numLEDs ∧
    (∃ s' m, setPixelColor sampleLookup 0 255 0 0 strip3 = some s' ∧ s'.pixels = some m ∧
      s'.numLEDs = strip3.numLEDs ∧ s'.numBytes = strip3.numBytes ∧
      s'.brightness = strip3.brightness ∧ m.length = strip3Buf.length ∧
      (∀ j, j < 1 + 9 * 0 ∨ 1 + 9 * 0 + 8 < j → m[j]? = strip3Buf[j]?) ∧
      m[0]? = strip3Buf[0]? ∧ m[strip3Buf.length - 1]? = strip3Buf[strip3Buf.length - 1]? ∧
      (∀ i, i ≠ 0 → region m i = region strip3Buf i)) ∧
    (∃ m, setPixelColor sampleLookup 0 255 0 0 strip3 = some { strip3 with pixels := some m } ∧
      region m 0 = encode sampleLookup 0 ++ encode sampleLookup 255 ++ encode sampleLookup 0 ∧
      region m 1 = encode sampleLookup 0 ++ encode sampleLookup 0 ++ encode sampleLookup 0 ∧
      region m 2 = encode sampleLookup 0 ++ encode sampleLookup 0 ++ encode sampleLookup 0) :=
  ⟨by decide, rfl, by decide, by decide,
   setPixelColor_frame sampleLookup strip3 strip3Buf 0 255 0 0 rfl (by decide) (by decide),
   ⟨[0,
     0x92, 0x49, 0x24, 0xDB, 0x6D, 0xB6, 0x92, 0x49, 0x24,
     0x92, 0x49, 0x24, 0x92, 0x49, 0x24, 0x92, 0x49, 0x24,
     0x92, 0x49, 0x24, 0x92, 0x49, 0x24, 0x92, 0x49, 0x24,
     0], by decide, by decide, by decide, by decide⟩⟩


/-! ## clear and updateLength -/

/-- What `clear` does to an allocated buffer: it succeeds, touches only
`pixels`, keeps the length, fills offsets `1 .. 9 * numLEDs` with the three
table entries for 0 in turn and leaves the other offsets alone. -/
theorem clear_spec (T : Lookup) (s : WS2812B) (buf : List Nat)
    (hp : s.pixels = some buf) (hlen : 1 + 9 * s.numLEDs ≤ buf.length) :
    ∃ m, clear T s = some { s with pixels := some m } ∧ m.length = buf.length ∧
      ∀ j, m[j]? = if 1 ≤ j ∧ j < 1 + 9 * s.numLEDs
        then (encode T 0)[(j - 1) % 3]? else buf[j]? := by
  obtain ⟨m, hm, hl, hget⟩ := clearLoop_spec T (s.numLEDs * 3) 1 buf (by omega)
  refine ⟨m, ?_, hl, fun j => ?_⟩
  · simp [clear, hp, hm]
  · rw [hget j]
    have h3 : 3 * (s.numLEDs * 3) = 9 * s.numLEDs := by omega
    rw [h3]

/-- A buffer whose pixel bytes are the table entries for 0 in turn holds the
encoding of 0 three times in the region of every LED. -/
theorem region_of_cleared (T : Lookup) (m : List Nat) (k i : Nat) (hi : i < k)
    (hget : ∀ j, 1 ≤ j ∧ j < 1 + 9 * k → m[j]? = (encode T 0)[(j - 1) % 3]?) :
    region m i = encode T 0 ++ encode T 0 ++ encode T 0 := by
  have key := slice_eq_of_get m (encode T 0 ++ encode T 0 ++ encode T 0) (1 + 9 * i)
    (fun j hj => by
      simp only [encode, List.length_append, List.length_cons, List.length_nil] at hj
      rw [hget _ (by omega)]
      have h2 : (1 + 9 * i + j - 1) % 3 = j % 3 := by omega
      rw [h2]
      have h9 : j < 9 := by omega
      interval_cases j <;> rfl)
  exact key

/-- A non-empty run of stores that leaves the block is undefined. -/
theorem pokes_none (vs : List Nat) : ∀ (buf : List Nat) (p : Nat),
    vs ≠ [] → buf.length < p + vs.length → pokes buf p vs = none := by
  induction vs with
  | nil => intro buf p hne _; exact absurd rfl hne
  | cons v vs ih =>
    intro buf p _ h
    simp only [List.length_cons] at h
    by_cases hp : p < buf.length
    · simp only [pokes, poke_eq_some v hp, Option.some_bind]
      have hne : vs ≠ [] := by
        intro hnil
        subst hnil
        simp only [List.length_nil] at h
        omega
      exact ih _ _ hne (by simp only [List.length_set]; omega)
    · simp [pokes, poke, hp]

/-- The loop of `clear` is undefined when its `3 * k` stores do not fit. -/
theorem clearLoop_none (T : Lookup) (k : Nat) : ∀ (p : Nat) (buf : List Nat),
    0 < k → buf.length < p + 3 * k → clearLoop T k p buf = none := by
  induction k with
  | zero => intro p buf h0 _; omega
  | succ k ih =>
    intro p buf _ h
    by_cases h3 : p + 3 ≤ buf.length
    · obtain ⟨m1, hm1, hlen1, _⟩ :=
        pokes_spec [T.byte0Lookup 0, T.byte1Lookup 0, T.byte2Lookup 0] buf p
          (by simp only [List.length_cons, List.length_nil]; omega)
      simp only [clearLoop, hm1, Option.some_bind]
      exact ih _ _ (by omega) (by omega)
    · have := pokes_none [T.byte0Lookup 0, T.byte1Lookup 0, T.byte2Lookup 0] buf p
        (by simp) (by simp only [List.length_cons, List.length_nil]; omega)
      simp [clearLoop, this]

/-- For LED counts whose buffer size `9 * n + 2` fits the 16-bit `numBytes`
(`n ≤ 7281`), a successful `updateLength(n)` from any state leaves a buffer
of exactly `9 * n + 2` bytes, `numBytes = 9 * n + 2`, `numPixels() = n`, byte 0
and the final byte 0, and the encoding of 0 three times in every LED region;
the stored brightness is not touched. -/
theorem updateLength_fits (T : Lookup) (s : WS2812B) (n : Nat) (hn : n ≤ 7281) :
    ∃ m, updateLength T true n s
        = some { s with numBytes := 9 * n + 2, pixels := some m, numLEDs := n } ∧
      m.length = 9 * n + 2 ∧ m[0]? = some 0 ∧ m[9 * n + 1]? = some 0 ∧
      ∀ i, i < n → region m i = encode T 0 ++ encode T 0 ++ encode T 0 := by
  have hb : ((n <<< 3) + n + 2) % 65536 = 9 * n + 2 := by
    rw [Nat.shiftLeft_eq]; omega
  obtain ⟨m, hm, hl, hget⟩ :=
    clear_spec T { s with numBytes := 9 * n + 2,
                          pixels := some (List.replicate (9 * n + 2) 0), numLEDs := n }
      (List.replicate (9 * n + 2) 0) rfl (by simp only [List.length_replicate]; omega)
  simp only [List.length_replicate] at hl
  dsimp only at hget
  refine ⟨m, ?_, hl, ?_, ?_, ?_⟩
  · simp only [updateLength, hb, if_true]
    exact hm
  · rw [hget 0, if_neg (by omega)]
    simp
  · rw [hget (9 * n + 1), if_neg (by omega)]
    simp
  · intro i hi
    apply region_of_cleared T m n i hi
    intro j hj
    rw [hget j]
    exact if_pos hj

/-- For every larger 16-bit LED count the size `9 * n + 2` does not fit
`numBytes`: the block `malloc` returns is shorter than what `clear` writes,
and `updateLength(n)` is undefined although the allocation succeeded. -/
theorem updateLength_wraps (T : Lookup) (s : WS2812B) (n : Nat)
    (hlo : 7282 ≤ n) (hhi : n < 65536) :
    ((n <<< 3) + n + 2) % 65536 < 9 * n + 2 ∧ updateLength T true n s = none := by
  have hb : ((n <<< 3) + n + 2) % 65536 ≤ 9 * n + 2 - 65536 := by
    rw [Nat.shiftLeft_eq]; omega
  refine ⟨by omega, ?_⟩
  simp only [updateLength, if_true, clear]
  rw [clearLoop_none T (n * 3) 1 _ (by omega) (by simp only [List.length_replicate]; omega)]
  rfl


/-- C3, evaluated at the LED count 7282: `(n<<3)+n+2` is 65540, the 16-bit
`numBytes` receives 4, `malloc(4)` succeeds, and `clear()` then stores
`9 * 7282` bytes from offset 1 of the four-byte block: the call is undefined,
for every table and every prior state, instead of leaving a buffer of
`9 * 7282 + 2` bytes. -/
theorem updateLength_7282 (T : Lookup) (s : WS2812B) :
    ((7282 <<< 3) + 7282 + 2) % 65536 = 4 ∧ updateLength T true 7282 s = none :=
  ⟨by decide, (updateLength_wraps T s 7282 (by decide) (by decide)).2⟩

/-- C4: on an allocated buffer with any content, `clear()` succeeds; afterwards
the region of every LED `i < numLEDs` is `byte0Lookup[0], byte1Lookup[0],
byte2Lookup[0]` three times, while byte 0, the final byte, the buffer length,
`numLEDs`, `numBytes` and the stored brightness are unchanged. -/
theorem clear_regions (T : Lookup) (s : WS2812B) (buf : List Nat)
    (hp : s.pixels = some buf) (hlen : buf.length = 9 * s.numLEDs + 2) :
    ∃ s' m, clear T s = some s' ∧ s'.pixels = some m ∧
      (∀ i, i < s.numLEDs → (m.drop (1 + 9 * i)).take 9 =
        [T.byte0Lookup 0, T.byte1Lookup 0, T.byte2Lookup 0,
         T.byte0Lookup 0, T.byte1Lookup 0, T.byte2Lookup 0,
         T.byte0Lookup 0, T.byte1Lookup 0, T.byte2Lookup 0]) ∧
      m[0]? = buf[0]? ∧ m[buf.length - 1]? = buf[buf.length - 1]? ∧
      m.length = buf.length ∧ s'.numLEDs = s.numLEDs ∧ s'.numBytes = s.numBytes ∧
      s'.brightness = s.brightness := by
  obtain ⟨m, hm, hl, hget⟩ := clear_spec T s buf hp (by omega)
  refine ⟨_, m, hm, rfl, ?_, ?_, ?_, hl, rfl, rfl, rfl⟩
  · intro i hi
    apply region_of_cleared T m s.numLEDs i hi
    intro j hj
    rw [hget j]
    exact if_pos hj
  · rw [hget 0, if_neg (by omega)]
  · rw [hget, if_neg (by omega)]

/-- C4 at a concrete input: `clear()` on the one-LED strip whose channels hold
the encoding of 1 at stored brightness 2. -/
theorem clear_regions_witness :
    dimStrip1.pixels = some dimStrip1Buf ∧
    dimStrip1Buf.length = 9 * dimStrip1.numLEDs + 2 ∧
    clear sampleLookup dimStrip1 = some { dimStrip1 with
      pixels := some [0, 0x92, 0x49, 0x24, 0x92, 0x49, 0x24, 0x92, 0x49, 0x24, 0] } ∧
    ∃ s' m, clear sampleLookup dimStrip1 = some s' ∧ s'.pixels = some m ∧
      (∀ i, i < dimStrip1.numLEDs → (m.drop (1 + 9 * i)).take 9 =
        [sampleLookup.byte0Lookup 0, sampleLookup.byte1Lookup 0, sampleLookup.byte2Lookup 0,
         sampleLookup.byte0Lookup 0, sampleLookup.byte1Lookup 0, sampleLookup.byte2Lookup 0,
         sampleLookup.byte0Lookup 0, sampleLookup.byte1Lookup 0, sampleLookup.byte2Lookup 0]) ∧
      m[0]? = dimStrip1Buf[0]? ∧
      m[dimStrip1Buf.length - 1]? = dimStrip1Buf[dimStrip1Buf.length - 1]? ∧
      m.length = dimStrip1Buf.length ∧ s'.numLEDs = dimStrip1.numLEDs ∧
      s'.numBytes = dimStrip1.numBytes ∧ s'.brightness = dimStrip1.brightness :=
  ⟨rfl, by decide, by decide,
   clear_regions sampleLookup dimStrip1 dimStrip1Buf rfl (by decide)⟩


/-! ## Packed colours and brightness -/

/-- On byte arguments the bitwise packing of `Color` is a sum of disjoint
fields. -/
theorem Color_eq_add (r g b : Nat) (hg : g < 256) (hb : b < 256) :
    Color r g b = r * 65536 + g * 256 + b := by
  have h1 := Nat.mul_add_lt_is_or (i := 16) (b := 256 * g) (by omega) r
  have h2 := Nat.mul_add_lt_is_or (i := 8) (b := b) (by omega) (256 * r + g)
  have e1 : r <<< 16 = 2 ^ 16 * r := by rw [Nat.shiftLeft_eq, Nat.mul_comm]
  have e2 : g <<< 8 = 256 * g := by rw [Nat.shiftLeft_eq, Nat.mul_comm]
  have e3 : 2 ^ 16 * r + 256 * g = 2 ^ 8 * (256 * r + g) := by omega
  unfold Color
  rw [e1, e2, ← h1, e3, ← h2]
  omega

/-- The three byte extractions of the packed `setPixelColor` undo `Color`. -/
theorem unpack_Color (r g b : Nat) (hr : r < 256) (hg : g < 256) (hb : b < 256) :
    (Color r g b >>> 16) % 256 = r ∧ (Color r g b >>> 8) % 256 = g ∧
      Color r g b % 256 = b := by
  rw [Color_eq_add r g b hg hb, Nat.shiftRight_eq_div_pow, Nat.shiftRight_eq_div_pow]
  refine ⟨?_, ?_, ?_⟩ <;> omega

/-- A channel byte scaled by a stored brightness of at most 256 fits a byte
and does not exceed the channel. -/
theorem scaled_channel (v s : Nat) (hv : v < 256) (hs : s ≤ 256) :
    (v * s) >>> 8 < 256 ∧ (v * s) >>> 8 ≤ v ∧ ((v * s) >>> 8) % 256 = (v * s) >>> 8 := by
  have h := Nat.mul_le_mul_left v hs
  rw [Nat.shiftRight_eq_div_pow]
  refine ⟨?_, ?_, ?_⟩ <;> omega

/-- The de-wrapping `brightness - 1` converted to `uint8_t`. -/
theorem u8_pred (x : Nat) : u8 ((x : Int) - 1) = (x + 255) % 256 := by
  unfold u8
  omega

/-- What `setBrightness` does on a state that satisfies the length
invariant: nothing when the new stored value equals the old one, otherwise it
maps the rescaling (with the store's conversion to `uint8_t`) over the whole
block and stores the new value. -/
theorem setBrightness_spec (b : Nat) (s : WS2812B) (hs : Consistent s) :
    setBrightness b s =
      if (b + 1) % 256 = s.brightness then some s
      else some { s with
        pixels := s.pixels.map (List.map (fun c =>
          ((c * brightnessScale b ((b + 1) % 256) (u8 ((s.brightness : Int) - 1))) >>> 8)
            % 256)),
        brightness := (b + 1) % 256 } := by
  unfold setBrightness
  by_cases h : (b + 1) % 256 = s.brightness
  · simp [h]
  · simp only [ne_eq, h, not_false_eq_true, if_true, if_false]
    unfold Consistent at hs
    cases hpx : s.pixels with
    | none =>
      rw [hpx] at hs
      simp [hs.2]
    | some buf =>
      rw [hpx] at hs
      simp only [← hs.1, scaleLoop_all, Option.map_some']


/-- `clear` never touches the stored brightness. -/
theorem clear_brightness (T : Lookup) (s s' : WS2812B) (h : clear T s = some s') :
    s'.brightness = s.brightness := by
  unfold clear at h
  cases hpx : s.pixels with
  | none =>
    rw [hpx] at h
    by_cases h0 : s.numLEDs * 3 = 0
    · simp only [h0, if_true, Option.some.injEq] at h
      rw [← h]
    · simp [h0] at h
  | some buf =>
    rw [hpx] at h
    simp only [Option.map_eq_some'] at h
    obtain ⟨m, _, hm⟩ := h
    rw [← hm]

/-- C5: the constructor leaves the stored brightness at the no-scaling
sentinel 0, and with the stored brightness 0, an allocated buffer,
`n < numLEDs` and bytes `r`, `g`, `b`, both `setPixelColor(n, Color(r, g, b))`
and `setPixelColor(n, r, g, b)` succeed with exactly the same state. -/
theorem setPixelColor32_unscaled (T : Lookup) (s : WS2812B) (buf : List Nat)
    (n r g b : Nat) (hp : s.pixels = some buf) (hlen : buf.length = 9 * s.numLEDs + 2)
    (hn : n < s.numLEDs) (hbr : s.brightness = 0)
    (hr : r < 256) (hg : g < 256) (hb : b < 256) :
    (∀ ok k s0, construct T ok k = some s0 → s0.brightness = 0) ∧
    ∃ s', setPixelColor32 T n (Color r g b) s = some s' ∧
      setPixelColor T n r g b s = some s' := by
  constructor
  · intro ok k s0 h
    unfold construct updateLength at h
    cases ok with
    | true =>
      simp only [if_true] at h
      exact clear_brightness T _ _ h
    | false =>
      simp only [Bool.false_eq_true, if_false, Option.some.injEq] at h
      rw [← h]
  · obtain ⟨m, hm, _, _⟩ := setPixelColor_spec T s buf n r g b hp (by omega)
    obtain ⟨h1, h2, h3⟩ := unpack_Color r g b hr hg hb
    refine ⟨_, ?_, hm⟩
    unfold setPixelColor32
    rw [if_neg (by simp [hbr]), h1, h2, h3]
    exact hm

/-- C5 at the scenario of the spec: one LED, brightness as constructed,
`setPixelColor(0, Color(10, 20, 30))` against `setPixelColor(0, 10, 20, 30)`. -/
theorem setPixelColor32_unscaled_witness :
    construct sampleLookup true 1 = some strip1 ∧
    strip1.pixels = some strip1Buf ∧ strip1Buf.length = 9 * strip1.numLEDs + 2 ∧
    0 < strip1.numLEDs ∧ strip1.brightness = 0 ∧
    ((∀ ok k s0, construct sampleLookup ok k = some s0 → s0.brightness = 0) ∧
      ∃ s', setPixelColor32 sampleLookup 0 (Color 10 20 30) strip1 = some s' ∧
        setPixelColor sampleLookup 0 10 20 30 strip1 = some s') :=
  ⟨by decide, rfl, by decide, by decide, rfl,
   setPixelColor32_unscaled sampleLookup strip1 strip1Buf 0 10 20 30 rfl (by decide)
     (by decide) rfl (by decide) (by decide) (by decide)⟩

/-- C6: with a stored brightness `s` in `1..255`, an allocated buffer and
`n < numLEDs`, `setPixelColor(n, c)` succeeds with the same state as
`setPixelColor(n, (r*s) >> 8, (g*s) >> 8, (b*s) >> 8)` for `r`, `g`, `b` the
bits 16..23, 8..15, 0..7 of `c`; each scaled channel fits a byte and is no
greater than the unscaled channel. -/
theorem setPixelColor32_scaled (T : Lookup) (s : WS2812B) (buf : List Nat) (n c : Nat)
    (hp : s.pixels = some buf) (hlen : buf.length = 9 * s.numLEDs + 2)
    (hn : n < s.numLEDs) (hlo : 1 ≤ s.brightness) (hhi : s.brightness ≤ 255) :
    (∃ s', setPixelColor32 T n c s = some s' ∧
      setPixelColor T n (((c >>> 16) % 256 * s.brightness) >>> 8)
        (((c >>> 8) % 256 * s.brightness) >>> 8) ((c % 256 * s.brightness) >>> 8) s
        = some s') ∧
    ((c >>> 16) % 256 * s.brightness) >>> 8 < 256 ∧
    ((c >>> 8) % 256 * s.brightness) >>> 8 < 256 ∧
    (c % 256 * s.brightness) >>> 8 < 256 ∧
    ((c >>> 16) % 256 * s.brightness) >>> 8 ≤ (c >>> 16) % 256 ∧
    ((c >>> 8) % 256 * s.brightness) >>> 8 ≤ (c >>> 8) % 256 ∧
    (c % 256 * s.brightness) >>> 8 ≤ c % 256 := by
  obtain ⟨r1, r2, r3⟩ :=
    scaled_channel ((c >>> 16) % 256) s.brightness (Nat.mod_lt _ (by decide)) (by omega)
  obtain ⟨g1, g2, g3⟩ :=
    scaled_channel ((c >>> 8) % 256) s.brightness (Nat.mod_lt _ (by decide)) (by omega)
  obtain ⟨b1, b2, b3⟩ :=
    scaled_channel (c % 256) s.brightness (Nat.mod_lt _ (by decide)) (by omega)
  obtain ⟨m, hm, _, _⟩ := setPixelColor_spec T s buf n
    (((c >>> 16) % 256 * s.brightness) >>> 8)
    (((c >>> 8) % 256 * s.brightness) >>> 8) ((c % 256 * s.brightness) >>> 8) hp (by omega)
  refine ⟨⟨_, ?_, hm⟩, r1, g1, b1, r2, g2, b2⟩
  have hne : s.brightness ≠ 0 := by omega
  simp only [setPixelColor32, ne_eq, hne, not_false_eq_true, if_true, r3, g3, b3]
  exact hm

/-- C6 at a concrete input: the one-LED strip at stored brightness 2 and the
packed colour `0x00FF8040`. -/
theorem setPixelColor32_scaled_witness :
    dimStrip1.pixels = some dimStrip1Buf ∧
    dimStrip1Buf.length = 9 * dimStrip1.numLEDs + 2 ∧ 0 < dimStrip1.numLEDs ∧
    1 ≤ dimStrip1.brightness ∧ dimStrip1.brightness ≤ 255 ∧
    (∃ s', setPixelColor32 sampleLookup 0 0x00FF8040 dimStrip1 = some s' ∧
      setPixelColor sampleLookup 0 (((0x00FF8040 >>> 16) % 256 * dimStrip1.brightness) >>> 8)
        (((0x00FF8040 >>> 8) % 256 * dimStrip1.brightness) >>> 8)
        ((0x00FF8040 % 256 * dimStrip1.brightness) >>> 8) dimStrip1 = some s') :=
  ⟨rfl, by decide, by decide, by decide, by decide,
   (setPixelColor32_scaled sampleLookup dimStrip1 dimStrip1Buf 0 0x00FF8040 rfl (by decide)
     (by decide) (by decide) (by decide)).1⟩

/-- C7: on every state that satisfies the length invariant and for every byte
`b`, `setBrightness(b)` succeeds and `getBrightness()` then returns `b`,
whether the call rescaled the buffer or was a no-op. -/
theorem getBrightness_setBrightness (b : Nat) (s : WS2812B) (hs : Consistent s)
    (hb : b < 256) :
    ∃ s', setBrightness b s = some s' ∧ getBrightness s' = b := by
  rw [setBrightness_spec b s hs]
  by_cases h : (b + 1) % 256 = s.brightness
  · refine ⟨s, by simp [h], ?_⟩
    unfold getBrightness
    rw [← h, u8_pred]
    omega
  · rw [if_neg h]
    refine ⟨_, rfl, ?_⟩
    unfold getBrightness
    simp only
    rw [u8_pred]
    omega

/-- C7 at a concrete input: `setBrightness(255)` on the strip at stored
brightness 2. -/
theorem getBrightness_setBrightness_witness :
    Consistent dimStrip1 ∧ 255 < 256 ∧
    ∃ s', setBrightness 255 dimStrip1 = some s' ∧ getBrightness s' = 255 :=
  ⟨⟨rfl, rfl⟩, by decide, getBrightness_setBrightness 255 dimStrip1 ⟨rfl, rfl⟩ (by decide)⟩


/-- The `scale` of `setBrightness` written without the (idle) conversion to
`uint16_t`, for a byte argument and a de-wrapped old brightness that is a
byte. -/
theorem brightnessScale_eq (b old : Nat) (hb : b < 256) :
    brightnessScale b ((b + 1) % 256) old =
      if old = 0 then 0 else if b = 255 then 65535 / old
      else (((b + 1) <<< 8) - 1) / old := by
  unfold brightnessScale
  by_cases h0 : old = 0
  · simp [h0]
  · rw [if_neg h0, if_neg h0]
    by_cases h255 : b = 255
    · rw [if_pos h255, if_pos h255]
      exact Nat.mod_eq_of_lt (Nat.lt_of_le_of_lt (Nat.div_le_self _ _) (by decide))
    · rw [if_neg h255, if_neg h255]
      have hb1 : (b + 1) % 256 = b + 1 := Nat.mod_eq_of_lt (by omega)
      rw [hb1]
      apply Nat.mod_eq_of_lt
      apply Nat.lt_of_le_of_lt (Nat.div_le_self _ _)
      rw [Nat.shiftLeft_eq]
      omega

/-- C8 as stated fails: on the one-LED strip at stored brightness 2,
`setBrightness(2)` uses `scale = 767`; the byte `0x92` has
`(0x92 * 767) >> 8 = 437`, which is no byte, and the buffer receives
`437 mod 256 = 181`. -/
theorem setBrightness_rescales_counterexample :
    Consistent dimStrip1 ∧ (2 + 1) % 256 ≠ dimStrip1.brightness ∧
    (((2 + 1) <<< 8) - 1) / ((dimStrip1.brightness + 255) % 256) = 767 ∧
    dimStrip1Buf.map (rescaled 767) = [0, 437, 218, 113, 437, 218, 113, 437, 218, 113, 0] ∧
    setBrightness 2 dimStrip1 = some { dimStrip1 with
      brightness := 3,
      pixels := some [0, 181, 218, 113, 181, 218, 113, 181, 218, 113, 0] } ∧
    (setBrightness 2 dimStrip1).map (fun s' => s'.pixels)
      ≠ some (some (dimStrip1Buf.map (rescaled 767))) :=
  ⟨⟨rfl, rfl⟩, by decide, by decide, by decide, by decide, by decide⟩

/-- C8, amended: on every state that satisfies the length invariant, for every
byte `b` with `(b+1) mod 256` different from the stored brightness `s`,
`setBrightness(b)` succeeds and replaces every buffer byte `c` (padding
included) by `((c * scale) >> 8) mod 256`, the low eight bits of the integer
`(c * scale) >> 8`, where `old = (s - 1) mod 256` and `scale` is 0 if
`old = 0`, `65535 / old` if `b = 255`, and `(((b+1) << 8) - 1) / old`
otherwise; it stores `(b+1) mod 256` as the brightness and leaves the buffer
length, `numBytes` and `numLEDs` unchanged. -/
theorem setBrightness_rescales (b : Nat) (s : WS2812B) (hs : Consistent s)
    (hb : b < 256) (hne : (b + 1) % 256 ≠ s.brightness) :
    ∃ s', setBrightness b s = some s' ∧
      s'.pixels = s.pixels.map (List.map (fun c =>
        rescaled
          (if (s.brightness + 255) % 256 = 0 then 0
           else if b = 255 then 65535 / ((s.brightness + 255) % 256)
           else (((b + 1) <<< 8) - 1) / ((s.brightness + 255) % 256)) c % 256)) ∧
      s'.brightness = (b + 1) % 256 ∧ s'.numLEDs = s.numLEDs ∧
      s'.numBytes = s.numBytes ∧
      ∀ buf, s.pixels = some buf → ∃ m, s'.pixels = some m ∧ m.length = buf.length := by
  rw [setBrightness_spec b s hs, if_neg hne, u8_pred, brightnessScale_eq b _ hb]
  refine ⟨_, rfl, rfl, rfl, rfl, rfl, ?_⟩
  intro buf hbuf
  simp only [hbuf, Option.map_some']
  exact ⟨_, rfl, List.length_map _ _⟩

/-- C8 (amended) at a concrete input: `setBrightness(2)` on the strip at
stored brightness 2. -/
theorem setBrightness_rescales_witness :
    Consistent dimStrip1 ∧ 2 < 256 ∧ (2 + 1) % 256 ≠ dimStrip1.brightness ∧
    ∃ s', setBrightness 2 dimStrip1 = some s' ∧
      s'.pixels = dimStrip1.pixels.map (List.map (fun c =>
        rescaled
          (if (dimStrip1.brightness + 255) % 256 = 0 then 0
           else if 2 = 255 then 65535 / ((dimStrip1.brightness + 255) % 256)
           else (((2 + 1) <<< 8) - 1) / ((dimStrip1.brightness + 255) % 256)) c % 256)) ∧
      s'.brightness = (2 + 1) % 256 ∧ s'.numLEDs = dimStrip1.numLEDs ∧
      s'.numBytes = dimStrip1.numBytes ∧
      ∀ buf, dimStrip1.pixels = some buf → ∃ m, s'.pixels = some m ∧ m.length = buf.length :=
  ⟨⟨rfl, rfl⟩, by decide, by decide,
   setBrightness_rescales 2 dimStrip1 ⟨rfl, rfl⟩ (by decide) (by decide)⟩

/-- C9: on every state that satisfies the length invariant and for every `b`,
`setBrightness(b)` succeeds, and a second `setBrightness(b)` right after it
returns the state of the first unchanged: same buffer, same stored
brightness. -/
theorem setBrightness_idempotent (b : Nat) (s : WS2812B) (hs : Consistent s) :
    ∃ s', setBrightness b s = some s' ∧ setBrightness b s' = some s' := by
  rw [setBrightness_spec b s hs]
  by_cases h : (b + 1) % 256 = s.brightness
  · rw [if_pos h]
    refine ⟨s, rfl, ?_⟩
    simp [setBrightness, h]
  · rw [if_neg h]
    refine ⟨_, rfl, ?_⟩
    simp [setBrightness]

/-- C9 at a concrete input: `setBrightness(255)` twice on the strip at stored
brightness 2. -/
theorem setBrightness_idempotent_witness :
    Consistent dimStrip1 ∧
    ∃ s', setBrightness 255 dimStrip1 = some s' ∧ setBrightness 255 s' = some s' :=
  ⟨⟨rfl, rfl⟩, setBrightness_idempotent 255 dimStrip1 ⟨rfl, rfl⟩⟩

/-- C10 as stated fails twice.  At stored brightness 1 `setBrightness(0)` is a
no-op and the buffer keeps its non-zero bytes; at stored brightness 2 the
scale is `255 / 1 = 255` and the byte `0x92` becomes `(0x92 * 255) >> 8 = 145`. -/
theorem setBrightness_zero_counterexample :
    Consistent offStrip1 ∧ setBrightness 0 offStrip1 = some offStrip1 ∧
    offStrip1.pixels = some [0, 0x92, 0x49, 0x24, 0x92, 0x49, 0x24, 0x92, 0x49, 0x24, 0] ∧
    Consistent dimStrip1 ∧
    setBrightness 0 dimStrip1 = some { dimStrip1 with
      brightness := 1,
      pixels := some [0, 145, 72, 37, 145, 72, 37, 145, 72, 37, 0] } :=
  ⟨⟨rfl, rfl⟩, by decide, rfl, ⟨rfl, rfl⟩, by decide⟩

/-- C10, amended: on every state that satisfies the length invariant and
holds bytes, with stored brightness `s` (a byte) and `old = (s - 1) mod 256`:
if `s = 1`, `setBrightness(0)` is a no-op; otherwise it succeeds, stores 1 as
the brightness, keeps the buffer length and replaces every buffer byte `c` by
`(c * (255 / old)) >> 8`, which is 0 exactly when `c * (255 / old) < 256`.
So every byte of the buffer is 0 afterwards exactly when no byte `c` has
`c * (255 / old) ≥ 256`: always, whatever the content, when `old ≥ 128`
(stored brightness 0 or 129..255, where `255 / old = 1`), and for smaller
`old` in particular when no byte exceeded `old`. -/
theorem setBrightness_zero (s : WS2812B) (hs : Consistent s) (hbr : s.brightness < 256)
    (hB : ∀ buf, s.pixels = some buf → Bytes buf) :
    (s.brightness = 1 → setBrightness 0 s = some s) ∧
    (s.brightness ≠ 1 → ∃ s', setBrightness 0 s = some s' ∧ s'.brightness = 1 ∧
      (s.pixels = none → s'.pixels = none) ∧
      ∀ buf, s.pixels = some buf → ∃ m, s'.pixels = some m ∧ m.length = buf.length ∧
        (∀ (j c : Nat), buf[j]? = some c →
          m[j]? = some (rescaled (255 / ((s.brightness + 255) % 256)) c) ∧
          (rescaled (255 / ((s.brightness + 255) % 256)) c = 0 ↔
            c * (255 / ((s.brightness + 255) % 256)) < 256)) ∧
        ((∀ x ∈ m, x = 0) ↔ ∀ c ∈ buf, c * (255 / ((s.brightness + 255) % 256)) < 256) ∧
        (128 ≤ (s.brightness + 255) % 256 → ∀ x ∈ m, x = 0) ∧
        (∀ (j c : Nat), buf[j]? = some c → c ≤ (s.brightness + 255) % 256 →
          m[j]? = some 0) ∧
        ((∀ c ∈ buf, c ≤ (s.brightness + 255) % 256) → ∀ x ∈ m, x = 0) ∧
        (s.brightness = 0 → ∀ x ∈ m, x = 0)) := by
  have hspec := setBrightness_spec 0 s hs
  constructor
  · intro h1
    rw [hspec, if_pos (by rw [h1])]
  · intro h1
    have hold : (s.brightness + 255) % 256 ≠ 0 := by omega
    have hscale : brightnessScale 0 ((0 + 1) % 256) (u8 ((s.brightness : Int) - 1))
        = 255 / ((s.brightness + 255) % 256) := by
      rw [brightnessScale_eq 0 _ (by decide), u8_pred, if_neg hold, if_neg (by decide)]
      rfl
    have hsc255 : 255 / ((s.brightness + 255) % 256) ≤ 255 := Nat.div_le_self _ _
    have hres : ∀ c, c < 256 →
        ((c * (255 / ((s.brightness + 255) % 256))) >>> 8) % 256
          = rescaled (255 / ((s.brightness + 255) % 256)) c ∧
        (rescaled (255 / ((s.brightness + 255) % 256)) c = 0 ↔
          c * (255 / ((s.brightness + 255) % 256)) < 256) := by
      intro c hc
      have h2 : c * (255 / ((s.brightness + 255) % 256)) ≤ 255 * 255 :=
        Nat.mul_le_mul (by omega) hsc255
      unfold rescaled
      rw [Nat.shiftRight_eq_div_pow]
      constructor <;> omega
    have hle : ∀ c, c ≤ (s.brightness + 255) % 256 →
        c * (255 / ((s.brightness + 255) % 256)) < 256 := by
      intro c hc
      have h2 : c * (255 / ((s.brightness + 255) % 256)) ≤ 255 :=
        Nat.le_trans (Nat.mul_le_mul_right _ hc) (Nat.mul_div_le _ _)
      omega
    have hone : 128 ≤ (s.brightness + 255) % 256 →
        255 / ((s.brightness + 255) % 256) = 1 := by
      intro h128
      have h3 : 255 / ((s.brightness + 255) % 256) < 2 :=
        (Nat.div_lt_iff_lt_mul (by omega)).mpr (by omega)
      have h4 : 0 < 255 / ((s.brightness + 255) % 256) :=
        Nat.div_pos (by omega) (by omega)
      omega
    rw [hspec, if_neg (by omega), hscale]
    refine ⟨_, rfl, rfl, ?_, ?_⟩
    · intro hnone
      simp only [hnone, Option.map_none']
    · intro buf hbuf
      have hbytes := hB buf hbuf
      simp only [hbuf, Option.map_some']
      have hget : ∀ (j c : Nat), buf[j]? = some c →
          (buf.map (fun c => ((c * (255 / ((s.brightness + 255) % 256))) >>> 8) % 256))[j]?
            = some (rescaled (255 / ((s.brightness + 255) % 256)) c) := by
        intro j c hj
        rw [List.getElem?_map, hj, Option.map_some',
          (hres c (hbytes c (List.getElem?_mem hj))).1]
      have hiff : (∀ x ∈ buf.map (fun c =>
              ((c * (255 / ((s.brightness + 255) % 256))) >>> 8) % 256), x = 0) ↔
          ∀ c ∈ buf, c * (255 / ((s.brightness + 255) % 256)) < 256 := by
        constructor
        · intro hall c hc
          have hx := hall _ (List.mem_map.mpr ⟨c, hc, rfl⟩)
          rw [(hres c (hbytes c hc)).1] at hx
          exact (hres c (hbytes c hc)).2.mp hx
        · intro hall x hx
          obtain ⟨c, hc, rfl⟩ := List.mem_map.mp hx
          rw [(hres c (hbytes c hc)).1]
          exact (hres c (hbytes c hc)).2.mpr (hall c hc)
      have h128 : 128 ≤ (s.brightness + 255) % 256 →
          ∀ x ∈ buf.map (fun c =>
            ((c * (255 / ((s.brightness + 255) % 256))) >>> 8) % 256), x = 0 := by
        intro h
        apply hiff.mpr
        intro c hc
        have hc256 := hbytes c hc
        rw [hone h]
        omega
      refine ⟨_, rfl, List.length_map _ _, ?_, hiff, h128, ?_, ?_, ?_⟩
      · intro j c hj
        exact ⟨hget j c hj, (hres c (hbytes c (List.getElem?_mem hj))).2⟩
      · intro j c hj hc
        rw [hget j c hj, ((hres c (hbytes c (List.getElem?_mem hj))).2).mpr (hle c hc)]
      · intro hall
        exact hiff.mpr (fun c hc => hle c (hall c hc))
      · intro h0
        exact h128 (by omega)

/-- C10 (amended) at a concrete input: the one-LED strip at stored brightness
129 holding the encoding of 255 in every channel; `old = 128`, the scale is 1
and `setBrightness(0)` turns the whole buffer into zeros. -/
theorem setBrightness_zero_witness :
    Consistent midStrip1 ∧ midStrip1.brightness < 256 ∧
    (∀ buf, midStrip1.pixels = some buf → Bytes buf) ∧
    setBrightness 0 midStrip1 = some { midStrip1 with
      brightness := 1, pixels := some [0, 0, 0, 0, 0, 0, 0, 0, 0, 0, 0] } ∧
    ((midStrip1.brightness = 1 → setBrightness 0 midStrip1 = some midStrip1) ∧
    (midStrip1.brightness ≠ 1 → ∃ s', setBrightness 0 midStrip1 = some s' ∧
      s'.brightness = 1 ∧ (midStrip1.pixels = none → s'.pixels = none) ∧
      ∀ buf, midStrip1.pixels = some buf → ∃ m, s'.pixels = some m ∧
        m.length = buf.length ∧
        (∀ (j c : Nat), buf[j]? = some c →
          m[j]? = some (rescaled (255 / ((midStrip1.brightness + 255) % 256)) c) ∧
          (rescaled (255 / ((midStrip1.brightness + 255) % 256)) c = 0 ↔
            c * (255 / ((midStrip1.brightness + 255) % 256)) < 256)) ∧
        ((∀ x ∈ m, x = 0) ↔
          ∀ c ∈ buf, c * (255 / ((midStrip1.brightness + 255) % 256)) < 256) ∧
        (128 ≤ (midStrip1.brightness + 255) % 256 → ∀ x ∈ m, x = 0) ∧
        (∀ (j c : Nat), buf[j]? = some c → c ≤ (midStrip1.brightness + 255) % 256 →
          m[j]? = some 0) ∧
        ((∀ c ∈ buf, c ≤ (midStrip1.brightness + 255) % 256) → ∀ x ∈ m, x = 0) ∧
        (midStrip1.brightness = 0 → ∀ x ∈ m, x = 0))) :=
  have hB : ∀ buf, midStrip1.pixels = some buf → Bytes buf := by
    intro buf h
    have hb : buf = midStrip1Buf := (Option.some.inj h).symm
    subst hb
    unfold Bytes
    decide
  ⟨⟨rfl, rfl⟩, by decide, hB, by decide,
   setBrightness_zero midStrip1 ⟨rfl, rfl⟩ (by decide) hB⟩

/-! ## Packing round trip, the Empty state, length 0 -/

/-- C11: for all bytes `r`, `g`, `b`, unpacking `Color(r, g, b)` the way the
packed `setPixelColor` does (low byte of `c >> 16`, of `c >> 8`, of `c`)
recovers exactly `(r, g, b)`, `Color(r, g, b)` being `(r << 16) | (g << 8) | b`;
hence two byte triples with the same packed colour are equal. -/
theorem Color_roundtrip (r g b : Nat) (hr : r < 256) (hg : g < 256) (hb : b < 256) :
    Color r g b = (r <<< 16) ||| (g <<< 8) ||| b ∧
    (Color r g b >>> 16) % 256 = r ∧ (Color r g b >>> 8) % 256 = g ∧
    Color r g b % 256 = b ∧
    ∀ r' g' b', r' < 256 → g' < 256 → b' < 256 → Color r g b = Color r' g' b' →
      r = r' ∧ g = g' ∧ b = b' := by
  obtain ⟨h1, h2, h3⟩ := unpack_Color r g b hr hg hb
  refine ⟨rfl, h1, h2, h3, ?_⟩
  intro r' g' b' hr' hg' hb' heq
  obtain ⟨k1, k2, k3⟩ := unpack_Color r' g' b' hr' hg' hb'
  rw [← heq] at k1 k2 k3
  exact ⟨h1.symm.trans k1, h2.symm.trans k2, h3.symm.trans k3⟩

/-- C11 at a concrete input: the colour (10, 20, 30). -/
theorem Color_roundtrip_witness :
    Color 10 20 30 = 0x0A141E ∧
    (Color 10 20 30 = (10 <<< 16) ||| (20 <<< 8) ||| 30 ∧
    (Color 10 20 30 >>> 16) % 256 = 10 ∧ (Color 10 20 30 >>> 8) % 256 = 20 ∧
    Color 10 20 30 % 256 = 30 ∧
    ∀ r' g' b', r' < 256 → g' < 256 → b' < 256 → Color 10 20 30 = Color r' g' b' →
      10 = r' ∧ 20 = g' ∧ 30 = b') :=
  ⟨by decide, Color_roundtrip 10 20 30 (by decide) (by decide) (by decide)⟩

/-- C12 as stated fails: after a failed allocation for five LEDs the object is
in the Empty state with `numPixels() = 0`, and `setPixelColor` in either form
is no safe no-op there; it stores through the null pointer, which is
undefined. -/
theorem empty_setPixelColor_counterexample :
    construct sampleLookup false 5 = some emptyStrip ∧ numPixels emptyStrip = 0 ∧
    emptyStrip.pixels = none ∧
    setPixelColor sampleLookup 0 1 2 3 emptyStrip = none ∧
    setPixelColor32 sampleLookup 0 (Color 1 2 3) emptyStrip = none :=
  ⟨by decide, rfl, rfl, by decide, by decide⟩

/-- C12, amended: when the allocation fails inside `updateLength(n)`, for every
`n` and prior state, the result is the Empty state (`numLEDs = 0`,
`numBytes = 0`, no buffer, `numPixels() = 0`, brightness as before); in that
state `clear` returns the state unchanged and `setBrightness(b)` succeeds for
every `b`, still without a buffer and with both counters 0: neither writes a
byte. -/
theorem updateLength_failed (T : Lookup) (n : Nat) (s : WS2812B) :
    ∃ s', updateLength T false n s = some s' ∧
      s'.numLEDs = 0 ∧ s'.numBytes = 0 ∧ s'.pixels = none ∧ numPixels s' = 0 ∧
      s'.brightness = s.brightness ∧
      clear T s' = some s' ∧
      ∀ b, ∃ s'', setBrightness b s' = some s'' ∧ s''.pixels = none ∧
        s''.numLEDs = 0 ∧ s''.numBytes = 0 := by
  refine ⟨{ s with numBytes := 0, pixels := none, numLEDs := 0 }, ?_, rfl, rfl, rfl, rfl,
    rfl, ?_, ?_⟩
  · simp [updateLength]
  · simp [clear]
  · intro b
    unfold setBrightness
    by_cases h : (b + 1) % 256 = s.brightness
    · refine ⟨{ s with numBytes := 0, pixels := none, numLEDs := 0 }, ?_, rfl, rfl, rfl⟩
      simp [h]
    · refine ⟨{ s with numBytes := 0, pixels := none, numLEDs := 0,
                       brightness := (b + 1) % 256 }, ?_, rfl, rfl, rfl⟩
      simp [h]

/-- C13: from every prior state, a successful `updateLength(0)` yields a buffer
of length exactly 2 whose two bytes are both 0, with `numBytes = 2` and
`numPixels() = 0`. -/
theorem updateLength_zero (T : Lookup) (s : WS2812B) :
    ∃ s', updateLength T true 0 s = some s' ∧ s'.pixels = some [0, 0] ∧
      s'.numBytes = 2 ∧ numPixels s' = 0 :=
  ⟨{ s with numBytes := 2, pixels := some [0, 0], numLEDs := 0 }, by
    simp [updateLength, clear, clearLoop, List.replicate], rfl, rfl, rfl⟩
/-! ## The length and padding invariants on calls with a defined result -/

theorem consistent_none {s : WS2812B} (h : s.pixels = none) :
    Consistent s ↔ s.numLEDs = 0 ∧ s.numBytes = 0 := by
  unfold Consistent
  rw [h]

theorem consistent_some {s : WS2812B} {buf : List Nat} (h : s.pixels = some buf) :
    Consistent s ↔ buf.length = s.numBytes ∧ s.numBytes = 9 * s.numLEDs + 2 := by
  unfold Consistent
  rw [h]

/-- From 7282 LEDs on, whatever the argument, the block `malloc` returns is
too short for `clear`, and a successful allocation leaves `updateLength`
undefined. -/
theorem updateLength_large (T : Lookup) (s : WS2812B) (n : Nat) (hlo : 7282 ≤ n) :
    updateLength T true n s = none := by
  have hb : ((n <<< 3) + n + 2) % 65536 < 65536 := Nat.mod_lt _ (by decide)
  simp only [updateLength, if_true, clear]
  rw [clearLoop_none T (n * 3) 1 _ (by omega) (by simp only [List.length_replicate]; omega)]
  rfl

/-- Where `updateLength` has a defined result (no store left the block), that
state satisfies the length invariant and has zero padding. -/
theorem inv_updateLength (T : Lookup) (ok : Bool) (n : Nat) (s s' : WS2812B)
    (h : updateLength T ok n s = some s') : Consistent s' ∧ Padded s' := by
  cases ok with
  | false =>
    simp only [updateLength, Bool.false_eq_true, if_false, Option.some.injEq] at h
    subst h
    exact ⟨⟨rfl, rfl⟩, fun buf hbuf => by cases hbuf⟩
  | true =>
    by_cases hn : n ≤ 7281
    · obtain ⟨m, hm, hl, h0, hlast, _⟩ := updateLength_fits T s n hn
      rw [hm] at h
      simp only [Option.some.injEq] at h
      subst h
      refine ⟨(consistent_some rfl).mpr ⟨hl, rfl⟩, ?_⟩
      intro buf hbuf
      simp only [Option.some.injEq] at hbuf
      subst hbuf
      exact ⟨h0, hlast⟩
    · rw [updateLength_large T s n (by omega)] at h
      cases h

/-- The invariants are kept by `clear`. -/
theorem inv_clear (T : Lookup) (s s' : WS2812B) (hc : Consistent s) (hp : Padded s)
    (h : clear T s = some s') : Consistent s' ∧ Padded s' := by
  cases hpx : s.pixels with
  | none =>
    have h0 := (consistent_none hpx).mp hc
    simp only [clear, hpx, h0.1, Nat.zero_mul, if_true, Option.some.injEq] at h
    subst h
    exact ⟨hc, hp⟩
  | some buf =>
    have hcs := (consistent_some hpx).mp hc
    obtain ⟨m, hm, hl, hget⟩ := clear_spec T s buf hpx (by omega)
    rw [hm] at h
    simp only [Option.some.injEq] at h
    subst h
    refine ⟨(consistent_some rfl).mpr ⟨by rw [hl]; exact hcs.1, hcs.2⟩, ?_⟩
    intro b2 hb2
    simp only [Option.some.injEq] at hb2
    subst hb2
    obtain ⟨p0, p1⟩ := hp buf hpx
    constructor
    · rw [hget 0, if_neg (by omega)]
      exact p0
    · show m[s.numBytes - 1]? = some 0
      rw [hget, if_neg (by omega)]
      exact p1

/-- The invariants are kept by the three-channel `setPixelColor` with
`n < numLEDs`. -/
theorem inv_setPixelColor (T : Lookup) (n r g b : Nat) (s s' : WS2812B)
    (hc : Consistent s) (hp : Padded s) (hn : n < s.numLEDs)
    (h : setPixelColor T n r g b s = some s') : Consistent s' ∧ Padded s' := by
  cases hpx : s.pixels with
  | none =>
    have h0 := (consistent_none hpx).mp hc
    omega
  | some buf =>
    have hcs := (consistent_some hpx).mp hc
    obtain ⟨m, hm, hl, hget⟩ := setPixelColor_spec T s buf n r g b hpx (by omega)
    rw [hm] at h
    simp only [Option.some.injEq] at h
    subst h
    refine ⟨(consistent_some rfl).mpr ⟨by rw [hl]; exact hcs.1, hcs.2⟩, ?_⟩
    intro b2 hb2
    simp only [Option.some.injEq] at hb2
    subst hb2
    obtain ⟨p0, p1⟩ := hp buf hpx
    constructor
    · rw [hget 0, if_neg (by omega)]
      exact p0
    · show m[s.numBytes - 1]? = some 0
      rw [hget, if_neg (by omega)]
      exact p1

/-- The invariants are kept by the packed `setPixelColor` with `n < numLEDs`. -/
theorem inv_setPixelColor32 (T : Lookup) (n c : Nat) (s s' : WS2812B)
    (hc : Consistent s) (hp : Padded s) (hn : n < s.numLEDs)
    (h : setPixelColor32 T n c s = some s') : Consistent s' ∧ Padded s' := by
  unfold setPixelColor32 at h
  by_cases hb : s.brightness ≠ 0
  · rw [if_pos hb] at h
    exact inv_setPixelColor T n _ _ _ s s' hc hp hn h
  · rw [if_neg hb] at h
    exact inv_setPixelColor T n _ _ _ s s' hc hp hn h

/-- The invariants are kept by `setBrightness`: a zero byte rescales to 0. -/
theorem inv_setBrightness (b : Nat) (s s' : WS2812B) (hc : Consistent s) (hp : Padded s)
    (h : setBrightness b s = some s') : Consistent s' ∧ Padded s' := by
  rw [setBrightness_spec b s hc] at h
  by_cases hb : (b + 1) % 256 = s.brightness
  · rw [if_pos hb] at h
    simp only [Option.some.injEq] at h
    subst h
    exact ⟨hc, hp⟩
  · rw [if_neg hb] at h
    simp only [Option.some.injEq] at h
    subst h
    cases hpx : s.pixels with
    | none =>
      have h0 := (consistent_none hpx).mp hc
      simp only [Option.map_none']
      exact ⟨(consistent_none rfl).mpr h0, fun b2 hb2 => by cases hb2⟩
    | some buf =>
      have hcs := (consistent_some hpx).mp hc
      obtain ⟨p0, p1⟩ := hp buf hpx
      simp only [Option.map_some']
      refine ⟨(consistent_some rfl).mpr ⟨by rw [List.length_map]; exact hcs.1, hcs.2⟩, ?_⟩
      intro b2 hb2
      simp only [Option.some.injEq] at hb2
      subst hb2
      constructor
      · rw [List.getElem?_map, p0]
        simp
      · show (List.map _ buf)[s.numBytes - 1]? = some 0
        rw [List.getElem?_map, p1]
        simp

/-- C14, evaluated at the LED count 7282: `updateLength` has stored
`numBytes = 4` (65540 cut to 16 bits) and `numLEDs = 7282` and holds a
four-byte block when it calls `clear()`, which assigns neither counter.  The
object is left with `numBytes = 4`, not `9 * 7282 + 2`, and the length
invariant is broken, for every table and every prior state; the constructor
called with 7282 does the same. -/
theorem updateLength_7282_length (T : Lookup) (s : WS2812B) :
    updateLength T true 7282 s
      = clear T { s with numBytes := 4, pixels := some [0, 0, 0, 0], numLEDs := 7282 } ∧
    construct T true 7282
      = clear T { begun := false, numLEDs := 7282, numBytes := 4, brightness := 0,
                  pixels := some [0, 0, 0, 0], endTime := 0 } ∧
    [0, 0, 0, 0].length = 4 ∧ (4 : Nat) ≠ 9 * 7282 + 2 ∧
    ¬ Consistent { s with numBytes := 4, pixels := some [0, 0, 0, 0], numLEDs := 7282 } := by
  refine ⟨rfl, rfl, rfl, by decide, ?_⟩
  intro h
  have h2 : (4 : Nat) = 9 * 7282 + 2 := ((consistent_some rfl).mp h).2
  omega

/-- C15, evaluated at the LED count 7282 with the sample tables: `clear()`
starts on the four-byte block `[0, 0, 0, 0]` with `numBytes = 4` and
`7282 * 3` passes to go; its first pass stores the encoding of 0 at offsets
1, 2, 3 and leaves `[0, 0x92, 0x49, 0x24]`, so the final byte (index
`numBytes - 1 = 3`) is `0x24`, not 0; every further pass stores at offset 4,
past the block. -/
theorem updateLength_7282_padding (s : WS2812B) :
    updateLength sampleLookup true 7282 s
      = clear sampleLookup
          { s with numBytes := 4, pixels := some [0, 0, 0, 0], numLEDs := 7282 } ∧
    7282 * 3 = 21845 + 1 ∧
    (∀ k, clearLoop sampleLookup (k + 1) 1 [0, 0, 0, 0]
      = clearLoop sampleLookup k 4 [0, 0x92, 0x49, 0x24]) ∧
    [0, 0x92, 0x49, 0x24][4 - 1]? = some 0x24 ∧ (0x24 : Nat) ≠ 0 ∧
    (∀ k, clearLoop sampleLookup (k + 1) 4 [0, 0x92, 0x49, 0x24] = none) := by
  refine ⟨rfl, by decide, ?_, by decide, by decide, ?_⟩
  · intro k
    rw [clearLoop]
    rfl
  · intro k
    rw [clearLoop]
    rfl

/-- C16, evaluated on the one-LED strip at stored brightness 2 (user
brightness 1), which the constructor, `setBrightness(1)` and a packed pixel
write reach, with the colour (255, 255, 255): the packed form scales each
channel to `(255 * 2) >> 8 = 1` and writes the encoding of 1, the
three-channel form ignores the brightness and writes the encoding of 255;
the two forms leave different bytes in the region of LED 0. -/
theorem setPixelColor_forms_differ :
    ((construct sampleLookup true 1).bind (setBrightness 1)).bind
      (setPixelColor32 sampleLookup 0 (Color 255 255 255)) = some dimStrip1 ∧
    dimStrip1.brightness = 2 ∧
    getBrightness dimStrip1 = 1 ∧
    setPixelColor32 sampleLookup 0 (Color 255 255 255) dimStrip1 =
      some { dimStrip1 with
        pixels := some [0, 0x92, 0x49, 0x26, 0x92, 0x49, 0x26, 0x92, 0x49, 0x26, 0] } ∧
    setPixelColor sampleLookup 0 255 255 255 dimStrip1 =
      some { dimStrip1 with
        pixels := some [0, 0xDB, 0x6D, 0xB6, 0xDB, 0x6D, 0xB6, 0xDB, 0x6D, 0xB6, 0] } ∧
    setPixelColor32 sampleLookup 0 (Color 255 255 255) dimStrip1
      ≠ setPixelColor sampleLookup 0 255 255 255 dimStrip1 :=
  ⟨by decide, rfl, by decide, by decide, by decide, by decide⟩
/-! ## Brightness 0, lowering the brightness, the white channel -/

/-- Rescaling with scale 0 turns a block into zeros. -/
theorem map_scale_zero (buf : List Nat) :
    buf.map (fun c => ((c * 0) >>> 8) % 256) = List.replicate buf.length 0 := by
  rw [List.eq_replicate_iff]
  refine ⟨List.length_map _ _, ?_⟩
  intro x hx
  obtain ⟨c, _, rfl⟩ := List.mem_map.mp hx
  simp

/-- Rescaling a block of zeros gives the block of zeros, whatever the scale. -/
theorem map_scale_replicate_zero (scale k : Nat) :
    (List.replicate k 0).map (fun c => ((c * scale) >>> 8) % 256) = List.replicate k 0 := by
  rw [List.map_replicate]
  simp

/-- C17: on every state that satisfies the length invariant with stored
brightness 1 (user brightness 0), for every byte `b ≠ 0`, `setBrightness(b)`
computes `scale = 0` (the division is not reached), succeeds, stores
`(b+1) mod 256` and leaves every byte of the buffer 0; every further
`setBrightness` keeps the buffer at zeros, so the earlier pixel data is not
recovered by raising the brightness. -/
theorem setBrightness_from_off (b : Nat) (s : WS2812B) (hs : Consistent s)
    (h1 : s.brightness = 1) (hb : b < 256) (hb0 : b ≠ 0) :
    brightnessScale b ((b + 1) % 256) (u8 ((s.brightness : Int) - 1)) = 0 ∧
    ∃ s', setBrightness b s = some s' ∧ s'.brightness = (b + 1) % 256 ∧
      (s.pixels = none → s'.pixels = none) ∧
      ∀ buf, s.pixels = some buf →
        s'.pixels = some (List.replicate buf.length 0) ∧
        ∀ b2, ∃ s'', setBrightness b2 s' = some s'' ∧
          s''.pixels = some (List.replicate buf.length 0) := by
  have hold : u8 ((s.brightness : Int) - 1) = 0 := by rw [u8_pred, h1]
  have hscale : brightnessScale b ((b + 1) % 256) (u8 ((s.brightness : Int) - 1)) = 0 := by
    rw [hold]
    simp [brightnessScale]
  have hne : (b + 1) % 256 ≠ s.brightness := by omega
  refine ⟨hscale, ?_⟩
  rw [setBrightness_spec b s hs, if_neg hne, hscale]
  refine ⟨_, rfl, rfl, ?_, ?_⟩
  · intro hnone
    simp only [hnone, Option.map_none']
  · intro buf hbuf
    have hcs := (consistent_some hbuf).mp hs
    simp only [hbuf, Option.map_some', map_scale_zero]
    refine ⟨trivial, ?_⟩
    intro b2
    have hs' : Consistent { s with pixels := some (List.replicate buf.length 0),
                                   brightness := (b + 1) % 256 } :=
      (consistent_some rfl).mpr ⟨by rw [List.length_replicate]; exact hcs.1, hcs.2⟩
    rw [setBrightness_spec b2 _ hs']
    by_cases hb2 : (b2 + 1) % 256 = (b + 1) % 256
    · exact ⟨_, if_pos hb2, rfl⟩
    · refine ⟨_, if_neg hb2, ?_⟩
      simp only [Option.map_some', map_scale_replicate_zero]

/-- C17 at a concrete input: `setBrightness(200)` on the one-LED strip at
stored brightness 1, whose buffer held the encoding of 0. -/
theorem setBrightness_from_off_witness :
    Consistent offStrip1 ∧ offStrip1.brightness = 1 ∧ 200 < 256 ∧ 200 ≠ 0 ∧
    setBrightness 200 offStrip1 = some { offStrip1 with
      brightness := 201, pixels := some [0, 0, 0, 0, 0, 0, 0, 0, 0, 0, 0] } ∧
    (brightnessScale 200 ((200 + 1) % 256) (u8 ((offStrip1.brightness : Int) - 1)) = 0 ∧
    ∃ s', setBrightness 200 offStrip1 = some s' ∧ s'.brightness = (200 + 1) % 256 ∧
      (offStrip1.pixels = none → s'.pixels = none) ∧
      ∀ buf, offStrip1.pixels = some buf →
        s'.pixels = some (List.replicate buf.length 0) ∧
        ∀ b2, ∃ s'', setBrightness b2 s' = some s'' ∧
          s''.pixels = some (List.replicate buf.length 0)) :=
  ⟨⟨rfl, rfl⟩, rfl, by decide, by decide, by decide,
   setBrightness_from_off 200 offStrip1 ⟨rfl, rfl⟩ rfl (by decide) (by decide)⟩

/-- C18: on every allocated state that satisfies the length invariant,
`setBrightness(0)` succeeds and leaves the stored brightness 1; after it, for
every `n < numLEDs` and every packed colour `c`, `setPixelColor(n, c)` succeeds
with the same state as `setPixelColor(n, 0, 0, 0)`, and the region of LED `n`
holds the encoding of intensity 0 in all three sub-regions. -/
theorem setPixelColor32_after_off (T : Lookup) (s : WS2812B) (buf : List Nat) (n c : Nat)
    (hs : Consistent s) (hp : s.pixels = some buf) (hn : n < s.numLEDs) :
    ∃ s1, setBrightness 0 s = some s1 ∧ s1.brightness = 1 ∧
      ∃ s2 m, setPixelColor32 T n c s1 = some s2 ∧
        setPixelColor T n 0 0 0 s1 = some s2 ∧ s2.pixels = some m ∧
        (m.drop (1 + 9 * n)).take 9 =
          [T.byte0Lookup 0, T.byte1Lookup 0, T.byte2Lookup 0,
           T.byte0Lookup 0, T.byte1Lookup 0, T.byte2Lookup 0,
           T.byte0Lookup 0, T.byte1Lookup 0, T.byte2Lookup 0] := by
  have hcs := (consistent_some hp).mp hs
  have key : ∀ s1 b1, s1.brightness = 1 → s1.pixels = some b1 → b1.length = buf.length →
      ∃ s2 m, setPixelColor32 T n c s1 = some s2 ∧
        setPixelColor T n 0 0 0 s1 = some s2 ∧ s2.pixels = some m ∧
        (m.drop (1 + 9 * n)).take 9 =
          [T.byte0Lookup 0, T.byte1Lookup 0, T.byte2Lookup 0,
           T.byte0Lookup 0, T.byte1Lookup 0, T.byte2Lookup 0,
           T.byte0Lookup 0, T.byte1Lookup 0, T.byte2Lookup 0] := by
    intro s1 b1 hb1 hp1 hl1
    obtain ⟨m, hm, _, hget⟩ := setPixelColor_spec T s1 b1 n 0 0 0 hp1 (by omega)
    have z : ∀ v, ((v % 256 * s1.brightness) >>> 8) % 256 = 0 := by
      intro v
      rw [hb1, Nat.shiftRight_eq_div_pow]
      omega
    refine ⟨_, m, ?_, hm, rfl, ?_⟩
    · unfold setPixelColor32
      rw [if_pos (by rw [hb1]; decide), z, z, z]
      exact hm
    · have sl := slice_eq_of_get m (encode T 0 ++ encode T 0 ++ encode T 0) (1 + 9 * n)
        (fun j hj => by
          simp only [encode, List.length_append, List.length_cons, List.length_nil] at hj
          have h1 : 1 + 9 * n ≤ 1 + 9 * n + j ∧ 1 + 9 * n + j < 1 + 9 * n + 9 := by omega
          have h2 : 1 + 9 * n + j - (1 + 9 * n) = j := by omega
          rw [hget, if_pos h1, h2])
      exact sl
  rw [setBrightness_spec 0 s hs]
  by_cases h1 : (0 + 1) % 256 = s.brightness
  · rw [if_pos h1]
    exact ⟨s, rfl, h1.symm, key s buf h1.symm hp rfl⟩
  · rw [if_neg h1]
    simp only [hp, Option.map_some']
    exact ⟨_, rfl, rfl, key _ _ rfl rfl (List.length_map _ _)⟩

/-- C18 at a concrete input: the three-LED strip as constructed, LED 1 and the
packed colour `0x12FFFFFF`. -/
theorem setPixelColor32_after_off_witness :
    Consistent strip3 ∧ strip3.pixels = some strip3Buf ∧ 1 < strip3.numLEDs ∧
    ∃ s1, setBrightness 0 strip3 = some s1 ∧ s1.brightness = 1 ∧
      ∃ s2 m, setPixelColor32 sampleLookup 1 0x12FFFFFF s1 = some s2 ∧
        setPixelColor sampleLookup 1 0 0 0 s1 = some s2 ∧ s2.pixels = some m ∧
        (m.drop (1 + 9 * 1)).take 9 =
          [sampleLookup.byte0Lookup 0, sampleLookup.byte1Lookup 0, sampleLookup.byte2Lookup 0,
           sampleLookup.byte0Lookup 0, sampleLookup.byte1Lookup 0, sampleLookup.byte2Lookup 0,
           sampleLookup.byte0Lookup 0, sampleLookup.byte1Lookup 0, sampleLookup.byte2Lookup 0] :=
  ⟨⟨rfl, rfl⟩, rfl, by decide,
   setPixelColor32_after_off sampleLookup strip3 strip3Buf 1 0x12FFFFFF ⟨rfl, rfl⟩ rfl
     (by decide)⟩
/-- C19: on every state that satisfies the length invariant and holds bytes,
with current user brightness `old = getBrightness()` and every `b < old`:
the scale `setBrightness(b)` computes is at most 255, the call succeeds, and
every buffer byte `c` is replaced by `(c * scale) >> 8`, which is at most 255
(the 8-bit store truncates nothing) and at most `c`. -/
theorem setBrightness_lower (b : Nat) (s : WS2812B) (hs : Consistent s)
    (hB : ∀ buf, s.pixels = some buf → Bytes buf) (hlt : b < getBrightness s) :
    brightnessScale b ((b + 1) % 256) (getBrightness s) ≤ 255 ∧
    ∃ s', setBrightness b s = some s' ∧ getBrightness s' = b ∧
      (s.pixels = none → s'.pixels = none) ∧
      ∀ buf, s.pixels = some buf → ∃ m, s'.pixels = some m ∧ m.length = buf.length ∧
        ∀ (j c : Nat), buf[j]? = some c →
          rescaled (brightnessScale b ((b + 1) % 256) (getBrightness s)) c ≤ 255 ∧
          m[j]? = some (rescaled (brightnessScale b ((b + 1) % 256) (getBrightness s)) c) ∧
          rescaled (brightnessScale b ((b + 1) % 256) (getBrightness s)) c ≤ c := by
  unfold getBrightness at hlt ⊢
  have hold := u8_pred s.brightness
  have hb : b < 256 := by omega
  have hne : (b + 1) % 256 ≠ s.brightness := by omega
  have hscale : brightnessScale b ((b + 1) % 256) (u8 ((s.brightness : Int) - 1)) ≤ 255 := by
    rw [brightnessScale_eq b _ hb, if_neg (by omega), if_neg (by omega)]
    have h2 : ((b + 1) <<< 8) - 1 < 256 * u8 ((s.brightness : Int) - 1) := by
      rw [Nat.shiftLeft_eq]
      omega
    have h3 := (Nat.div_lt_iff_lt_mul (by omega)).mpr h2
    omega
  have hres : ∀ c, c < 256 →
      rescaled (brightnessScale b ((b + 1) % 256) (u8 ((s.brightness : Int) - 1))) c ≤ 255 ∧
      ((c * brightnessScale b ((b + 1) % 256) (u8 ((s.brightness : Int) - 1))) >>> 8) % 256
        = rescaled (brightnessScale b ((b + 1) % 256) (u8 ((s.brightness : Int) - 1))) c ∧
      rescaled (brightnessScale b ((b + 1) % 256) (u8 ((s.brightness : Int) - 1))) c ≤ c := by
    intro c hc
    have hm := Nat.mul_le_mul_left c hscale
    unfold rescaled
    rw [Nat.shiftRight_eq_div_pow]
    refine ⟨?_, ?_, ?_⟩ <;> omega
  refine ⟨hscale, ?_⟩
  rw [setBrightness_spec b s hs, if_neg hne]
  refine ⟨_, rfl, ?_, ?_, ?_⟩
  · simp only
    rw [u8_pred]
    omega
  · intro hnone
    simp only [hnone, Option.map_none']
  · intro buf hbuf
    simp only [hbuf, Option.map_some']
    refine ⟨_, rfl, List.length_map _ _, ?_⟩
    intro j c hj
    have hc : c < 256 := hB buf hbuf c (List.getElem?_mem hj)
    obtain ⟨r1, r2, r3⟩ := hres c hc
    refine ⟨r1, ?_, r3⟩
    rw [List.getElem?_map, hj, Option.map_some', r2]

/-- C19 at a concrete input: lowering the reachable one-LED strip from user
brightness 1 (stored 2) to 0. -/
theorem setBrightness_lower_witness :
    Consistent dimStrip1 ∧ (∀ buf, dimStrip1.pixels = some buf → Bytes buf) ∧
    0 < getBrightness dimStrip1 ∧
    (brightnessScale 0 ((0 + 1) % 256) (getBrightness dimStrip1) ≤ 255 ∧
    ∃ s', setBrightness 0 dimStrip1 = some s' ∧ getBrightness s' = 0 ∧
      (dimStrip1.pixels = none → s'.pixels = none) ∧
      ∀ buf, dimStrip1.pixels = some buf → ∃ m, s'.pixels = some m ∧
        m.length = buf.length ∧
        ∀ (j c : Nat), buf[j]? = some c →
          rescaled (brightnessScale 0 ((0 + 1) % 256) (getBrightness dimStrip1)) c ≤ 255 ∧
          m[j]? = some
            (rescaled (brightnessScale 0 ((0 + 1) % 256) (getBrightness dimStrip1)) c) ∧
          rescaled (brightnessScale 0 ((0 + 1) % 256) (getBrightness dimStrip1)) c ≤ c) :=
  have hB : ∀ buf, dimStrip1.pixels = some buf → Bytes buf := by
    intro buf h
    have hb : buf = dimStrip1Buf := (Option.some.inj h).symm
    subst hb
    unfold Bytes
    decide
  ⟨⟨rfl, rfl⟩, hB, by decide, setBrightness_lower 0 dimStrip1 ⟨rfl, rfl⟩ hB (by decide)⟩

/-- On byte arguments the bitwise packing of the four-channel `Color` is a
sum of disjoint fields. -/
theorem ColorW_eq_add (r g b w : Nat) (hr : r < 256) (hg : g < 256) (hb : b < 256) :
    ColorW r g b w = w * 16777216 + r * 65536 + g * 256 + b := by
  have h0 := Nat.mul_add_lt_is_or (i := 24) (b := 65536 * r) (by omega) w
  have h1 := Nat.mul_add_lt_is_or (i := 16) (b := 256 * g) (by omega) (256 * w + r)
  have h2 := Nat.mul_add_lt_is_or (i := 8) (b := b) (by omega) (65536 * w + 256 * r + g)
  have e0 : w <<< 24 = 2 ^ 24 * w := by rw [Nat.shiftLeft_eq, Nat.mul_comm]
  have e1 : r <<< 16 = 65536 * r := by rw [Nat.shiftLeft_eq, Nat.mul_comm]
  have e2 : g <<< 8 = 256 * g := by rw [Nat.shiftLeft_eq, Nat.mul_comm]
  have e3 : 2 ^ 24 * w + 65536 * r = 2 ^ 16 * (256 * w + r) := by omega
  have e4 : 2 ^ 16 * (256 * w + r) + 256 * g = 2 ^ 8 * (65536 * w + 256 * r + g) := by
    omega
  unfold ColorW
  rw [e0, e1, e2, ← h0, e3, ← h1, e4, ← h2]
  omega

/-- The packed `setPixelColor` reads only the low 24 bits of the colour. -/
theorem setPixelColor32_congr (T : Lookup) (n c1 c2 : Nat) (s : WS2812B)
    (h : c1 % 16777216 = c2 % 16777216) :
    setPixelColor32 T n c1 s = setPixelColor32 T n c2 s := by
  have h16 : (c1 >>> 16) % 256 = (c2 >>> 16) % 256 := by
    rw [Nat.shiftRight_eq_div_pow, Nat.shiftRight_eq_div_pow]; omega
  have h8 : (c1 >>> 8) % 256 = (c2 >>> 8) % 256 := by
    rw [Nat.shiftRight_eq_div_pow, Nat.shiftRight_eq_div_pow]; omega
  have h0 : c1 % 256 = c2 % 256 := by omega
  unfold setPixelColor32
  rw [h16, h8, h0]

/-- The packed `setPixelColor` succeeds on an allocated buffer for
`n < numLEDs`. -/
theorem setPixelColor32_defined (T : Lookup) (s : WS2812B) (buf : List Nat) (n c : Nat)
    (hp : s.pixels = some buf) (hlen : buf.length = 9 * s.numLEDs + 2)
    (hn : n < s.numLEDs) : ∃ s', setPixelColor32 T n c s = some s' := by
  unfold setPixelColor32
  by_cases hb : s.brightness ≠ 0
  · rw [if_pos hb]
    obtain ⟨m, hm, _⟩ := setPixelColor_spec T s buf n
      ((((c >>> 16) % 256 * s.brightness) >>> 8) % 256)
      ((((c >>> 8) % 256 * s.brightness) >>> 8) % 256)
      (((c % 256 * s.brightness) >>> 8) % 256) hp (by omega)
    exact ⟨_, hm⟩
  · rw [if_neg hb]
    obtain ⟨m, hm, _⟩ := setPixelColor_spec T s buf n ((c >>> 16) % 256) ((c >>> 8) % 256)
      (c % 256) hp (by omega)
    exact ⟨_, hm⟩

/-- C20: on an allocated buffer, for `n < numLEDs`, all bytes `r`, `g`, `b`
and every `w`, `setPixelColor(n, Color(r, g, b, w))` succeeds with exactly the same state
as `setPixelColor(n, Color(r, g, b))`; and any two packed colours that agree
on their low 24 bits produce the same state. -/
theorem setPixelColor32_white (T : Lookup) (s : WS2812B) (buf : List Nat)
    (n r g b w : Nat) (hp : s.pixels = some buf) (hlen : buf.length = 9 * s.numLEDs + 2)
    (hn : n < s.numLEDs) (hr : r < 256) (hg : g < 256) (hb : b < 256) :
    ColorW r g b w = (w <<< 24) ||| (r <<< 16) ||| (g <<< 8) ||| b ∧
    (∃ s', setPixelColor32 T n (ColorW r g b w) s = some s' ∧
      setPixelColor32 T n (Color r g b) s = some s') ∧
    ∀ c1 c2, c1 % 16777216 = c2 % 16777216 →
      ∃ s', setPixelColor32 T n c1 s = some s' ∧ setPixelColor32 T n c2 s = some s' := by
  have hgen : ∀ c1 c2, c1 % 16777216 = c2 % 16777216 →
      ∃ s', setPixelColor32 T n c1 s = some s' ∧ setPixelColor32 T n c2 s = some s' := by
    intro c1 c2 h
    obtain ⟨s', hs'⟩ := setPixelColor32_defined T s buf n c1 hp hlen hn
    exact ⟨s', hs', by rw [← setPixelColor32_congr T n c1 c2 s h]; exact hs'⟩
  refine ⟨rfl, hgen _ _ ?_, hgen⟩
  rw [ColorW_eq_add r g b w hr hg hb, Color_eq_add r g b hg hb]
  omega

/-- C20 at a concrete input: LED 2 of the three-LED strip, colour
(10, 20, 30) with white 200. -/
theorem setPixelColor32_white_witness :
    strip3.pixels = some strip3Buf ∧ strip3Buf.length = 9 * strip3.numLEDs + 2 ∧
    2 < strip3.numLEDs ∧ ColorW 10 20 30 200 = 0xC80A141E ∧ Color 10 20 30 = 0x0A141E ∧
    (ColorW 10 20 30 200 = (200 <<< 24) ||| (10 <<< 16) ||| (20 <<< 8) ||| 30 ∧
    (∃ s', setPixelColor32 sampleLookup 2 (ColorW 10 20 30 200) strip3 = some s' ∧
      setPixelColor32 sampleLookup 2 (Color 10 20 30) strip3 = some s') ∧
    ∀ c1 c2, c1 % 16777216 = c2 % 16777216 →
      ∃ s', setPixelColor32 sampleLookup 2 c1 strip3 = some s' ∧
        setPixelColor32 sampleLookup 2 c2 strip3 = some s') :=
  ⟨rfl, by decide, by decide, by decide, by decide,
   setPixelColor32_white sampleLookup strip3 strip3Buf 2 10 20 30 200 rfl (by decide)
     (by decide) (by decide) (by decide) (by decide)⟩

end WS2812B
